import Mathlib

/-!
Shallow embedding of `italian_tax_validators` (validators.py, comuni.py)
and proofs about the claims of its specification.

Strings are modelled as `List Char`; scalar Python operations
(`str.strip`, `str.upper`, `str.replace(" ", "")`, `int(...)`,
f-string formatting) are embedded characterwise at ASCII scope.
The municipality directory (`comuni.py`) is treated as the external
collaborator the specification declares it to be: the validator is
parameterised by a lookup function, and a one-entry fragment of the
source table (`H501` from `CODICI_CATASTALI`) instantiates it in
concrete witnesses.
-/

namespace ItalianTax

/-! ## Characters and Python string primitives -/

/-- ASCII whitespace, as stripped by Python `str.strip`. -/
def pyIsWs (c : Char) : Bool :=
  c == ' ' || c == '\t' || c == '\n' || c == '\r' ||
  c == (Char.ofNat 11) || c == (Char.ofNat 12)

/-- Python `str.upper`, characterwise (ASCII scope). -/
def pyUpper (c : Char) : Char :=
  if 'a' ≤ c ∧ c ≤ 'z' then Char.ofNat (c.toNat - 32) else c

/-- `'A' ≤ c ≤ 'Z'` : the `[A-Z]` character class of `CF_PATTERN`. -/
def isUpperAZ (c : Char) : Bool := 'A' ≤ c && c ≤ 'Z'

/-- `'0' ≤ c ≤ '9'` : the digit character class. -/
def isDigitC (c : Char) : Bool := '0' ≤ c && c ≤ '9'

/-- The `[A-Z0-9]` character class of `CF_PATTERN`. -/
def isAlnumAZ09 (c : Char) : Bool := isUpperAZ c || isDigitC c

/-- Python `str.strip()` on a character list. -/
def pyStrip (s : List Char) : List Char :=
  ((s.dropWhile pyIsWs).reverse.dropWhile pyIsWs).reverse

/-- Python `.replace(" ", "")`. -/
def removeSpaces (s : List Char) : List Char := s.filter (fun c => c ≠ ' ')

/-- `value.strip().upper().replace(" ", "")` — the cleaning step of
`CodiceFiscaleValidator.validate`. -/
def cfClean (s : List Char) : List Char :=
  removeSpaces ((pyStrip s).map pyUpper)

/-- Digit character of `n` (meaningful for `n < 10`). -/
def digitCh (n : Nat) : Char := Char.ofNat (48 + n)

/-- Value of a digit character, as Python `int` on a single digit. -/
def digitVal (c : Char) : Option Nat :=
  if isDigitC c then some (c.toNat - 48) else none

/-- Python `int` on a two-character string of the CF (both must be digits;
on the alphanumeric characters reachable here `int` raises otherwise). -/
def parse2 (a b : Char) : Option Nat :=
  match digitVal a, digitVal b with
  | some x, some y => some (10 * x + y)
  | _, _ => none

/-- Decimal digits, least significant first (`fuel ≥ n` suffices; the
fuel only makes the recursion structural). -/
def natToRevDigitsAux : Nat → Nat → List Char
  | _, 0 => []
  | 0, _+1 => []
  | n+1, fuel+1 => digitCh ((n+1) % 10) :: natToRevDigitsAux ((n+1) / 10) fuel

/-- Decimal digits of `n`, least significant first. -/
def natToRevDigits (n : Nat) : List Char := natToRevDigitsAux n n

/-- Python `str(n)` for a natural number. -/
def pyStrNat (n : Nat) : List Char :=
  if n = 0 then ['0'] else (natToRevDigits n).reverse

theorem natToRevDigitsAux_fuel :
    ∀ (n f1 f2 : Nat), n ≤ f1 → n ≤ f2 →
      natToRevDigitsAux n f1 = natToRevDigitsAux n f2 := by
  intro n
  induction n using Nat.strong_induction_on with
  | _ n ih =>
    intro f1 f2 h1 h2
    match n, f1, f2 with
    | 0, 0, 0 => rfl
    | 0, 0, _+1 => rfl
    | 0, _+1, 0 => rfl
    | 0, _+1, _+1 => rfl
    | m+1, g1+1, g2+1 =>
      unfold natToRevDigitsAux
      have hq : (m+1) / 10 < m+1 := Nat.div_lt_self (Nat.succ_pos m)
        (by decide)
      have hle : (m+1) / 10 ≤ m := by omega
      rw [ih _ hq g1 g2 (by omega) (by omega)]

theorem natToRevDigits_pos {n : Nat} (h : 0 < n) :
    natToRevDigits n = digitCh (n % 10) :: natToRevDigits (n / 10) := by
  obtain ⟨m, rfl⟩ : ∃ m, n = m + 1 := ⟨n - 1, by omega⟩
  show natToRevDigitsAux (m+1) (m+1) = _
  unfold natToRevDigitsAux
  have hq : (m+1) / 10 < m+1 := Nat.div_lt_self (Nat.succ_pos m) (by decide)
  rw [natToRevDigitsAux_fuel ((m+1)/10) m ((m+1)/10) (by omega)
    (Nat.le_refl _)]
  rfl

/-! ## The Codice Fiscale tables of validators.py -/

/-- `CF_ODD_VALUES` — value of a character at an odd (1-indexed) position. -/
def CF_ODD_VALUES : List (Char × Nat) :=
  [('0', 1), ('1', 0), ('2', 5), ('3', 7), ('4', 9), ('5', 13), ('6', 15),
   ('7', 17), ('8', 19), ('9', 21),
   ('A', 1), ('B', 0), ('C', 5), ('D', 7), ('E', 9), ('F', 13), ('G', 15),
   ('H', 17), ('I', 19), ('J', 21), ('K', 2), ('L', 4), ('M', 18), ('N', 20),
   ('O', 11), ('P', 3), ('Q', 6), ('R', 8), ('S', 12), ('T', 14), ('U', 16),
   ('V', 10), ('W', 22), ('X', 25), ('Y', 24), ('Z', 23)]

/-- `CF_EVEN_VALUES` — value of a character at an even (1-indexed) position. -/
def CF_EVEN_VALUES : List (Char × Nat) :=
  [('0', 0), ('1', 1), ('2', 2), ('3', 3), ('4', 4), ('5', 5), ('6', 6),
   ('7', 7), ('8', 8), ('9', 9),
   ('A', 0), ('B', 1), ('C', 2), ('D', 3), ('E', 4), ('F', 5), ('G', 6),
   ('H', 7), ('I', 8), ('J', 9), ('K', 10), ('L', 11), ('M', 12), ('N', 13),
   ('O', 14), ('P', 15), ('Q', 16), ('R', 17), ('S', 18), ('T', 19),
   ('U', 20), ('V', 21), ('W', 22), ('X', 23), ('Y', 24), ('Z', 25)]

/-- `CF_MONTH_CODES` — month letter to month number. -/
def CF_MONTH_CODES : List (Char × Nat) :=
  [('A', 1), ('B', 2), ('C', 3), ('D', 4), ('E', 5), ('H', 6),
   ('L', 7), ('M', 8), ('P', 9), ('R', 10), ('S', 11), ('T', 12)]

/-- `CF_OMOCODIA_CHARS` — omocodia letter to the digit it replaces. -/
def CF_OMOCODIA_CHARS : List (Char × Char) :=
  [('L', '0'), ('M', '1'), ('N', '2'), ('P', '3'), ('Q', '4'),
   ('R', '5'), ('S', '6'), ('T', '7'), ('U', '8'), ('V', '9')]

/-- `CF_OMOCODIA_DIGITS = {v: k for k, v in CF_OMOCODIA_CHARS.items()}`. -/
def CF_OMOCODIA_DIGITS : List (Char × Char) :=
  CF_OMOCODIA_CHARS.map (fun p => (p.2, p.1))

/-- `CF_MONTH_CODES_REVERSE = {v: k for k, v in CF_MONTH_CODES.items()}`. -/
def CF_MONTH_CODES_REVERSE : List (Nat × Char) :=
  CF_MONTH_CODES.map (fun p => (p.2, p.1))

/-- Association-list lookup, as Python `dict.get` / `dict[...]`. -/
def alistGet {α β : Type} [BEq α] (l : List (α × β)) (k : α) : Option β :=
  (l.find? (fun p => p.1 == k)).map Prod.snd

/-- `CF_ODD_VALUES.get(char, 0)`. -/
def cfOddValue (c : Char) : Nat := (alistGet CF_ODD_VALUES c).getD 0

/-- `CF_EVEN_VALUES.get(char, 0)`. -/
def cfEvenValue (c : Char) : Nat := (alistGet CF_EVEN_VALUES c).getD 0

/-- `CF_MONTH_CODES.get(char)`. -/
def cfMonthCode (c : Char) : Option Nat := alistGet CF_MONTH_CODES c

/-- `CF_OMOCODIA_CHARS` lookup (letter → digit). -/
def omoToDigit (c : Char) : Option Char := alistGet CF_OMOCODIA_CHARS c

/-- `CF_OMOCODIA_DIGITS` lookup (digit → letter). -/
def digitToOmo (c : Char) : Option Char := alistGet CF_OMOCODIA_DIGITS c

/-- `CF_MONTH_CODES_REVERSE` lookup (month number → letter). -/
def cfMonthCodeReverse (m : Nat) : Option Char :=
  alistGet CF_MONTH_CODES_REVERSE m

/-! ## Dates

Python `datetime.date` objects: `date(year, month, day)` succeeds exactly
for `1 ≤ year ≤ 9999`, `1 ≤ month ≤ 12`, `1 ≤ day ≤` days in that month
(proleptic Gregorian calendar). -/

structure Date where
  year : Nat
  month : Nat
  day : Nat
deriving DecidableEq, Repr

/-- Gregorian leap year. -/
def isLeapYear (y : Nat) : Bool :=
  y % 4 == 0 && (y % 100 != 0 || y % 400 == 0)

/-- Days in a month of the proleptic Gregorian calendar. -/
def daysInMonth (y m : Nat) : Nat :=
  if m = 2 then (if isLeapYear y then 29 else 28)
  else if m = 4 ∨ m = 6 ∨ m = 9 ∨ m = 11 then 30
  else 31

/-- The constructor `datetime.date(y, m, d)`: `some` a date, or `none`
where Python raises `ValueError`. -/
def mkDate (y m d : Nat) : Option Date :=
  if 1 ≤ y ∧ y ≤ 9999 ∧ 1 ≤ m ∧ m ≤ 12 ∧ 1 ≤ d ∧ d ≤ daysInMonth y m then
    some ⟨y, m, d⟩
  else none

/-- A `Date` value representable as a Python `date` object. -/
def Date.Valid (d : Date) : Prop :=
  1 ≤ d.year ∧ d.year ≤ 9999 ∧ 1 ≤ d.month ∧ d.month ≤ 12 ∧
    1 ≤ d.day ∧ d.day ≤ daysInMonth d.year d.month

instance (d : Date) : Decidable d.Valid := by
  unfold Date.Valid; infer_instance

/-! ## CodiceFiscaleValidator -/

/-- `CodiceFiscaleValidationResult`. -/
structure CodiceFiscaleValidationResult where
  is_valid : Bool
  error_code : Option String := none
  formatted_value : Option (List Char) := none
  birthdate : Option Date := none
  age : Option Int := none
  gender : Option String := none
  birth_place_code : Option (List Char) := none
  birth_place_name : Option (List Char) := none
  birth_place_province : Option (List Char) := none
  is_foreign_born : Option Bool := none
deriving DecidableEq, Repr

/-- Positions where omocodia substitution can occur (`OMOCODIA_POSITIONS`). -/
def OMOCODIA_POSITIONS : List Nat := [6, 7, 9, 10, 12, 13, 14]

/-- The anchored regex `CF_PATTERN`
`^[A-Z]{6}[A-Z0-9]{2}[A-Z][A-Z0-9]{2}[A-Z][A-Z0-9]{3}[A-Z]$`
unfolded structurally over a 16-character string. -/
def cfPatternMatch : List Char → Bool
  | [c0, c1, c2, c3, c4, c5, c6, c7, c8, c9, c10, c11, c12, c13, c14, c15] =>
    isUpperAZ c0 && isUpperAZ c1 && isUpperAZ c2 && isUpperAZ c3 &&
    isUpperAZ c4 && isUpperAZ c5 && isAlnumAZ09 c6 && isAlnumAZ09 c7 &&
    isUpperAZ c8 && isAlnumAZ09 c9 && isAlnumAZ09 c10 && isUpperAZ c11 &&
    isAlnumAZ09 c12 && isAlnumAZ09 c13 && isAlnumAZ09 c14 && isUpperAZ c15
  | _ => false

/-- `CodiceFiscaleValidator._validate_format`. -/
def validateFormat (cf : List Char) : Bool :=
  cf.length == 16 && cfPatternMatch cf

/-- One iteration of the loop in `_decode_omocodia`: replace the character
at `pos` when it is an omocodia letter. -/
def decodeOmocodiaAt (l : List Char) (pos : Nat) : List Char :=
  match omoToDigit (l.getD pos ' ') with
  | some d => l.set pos d
  | none => l

/-- `CodiceFiscaleValidator._decode_omocodia`. -/
def decodeOmocodia (cf : List Char) : List Char :=
  OMOCODIA_POSITIONS.foldl decodeOmocodiaAt cf

/-- The checksum loop shared by `_validate_check_digit` (over the decoded
first 15 characters) and `_calculate_check_digit` (over the 15-character
stem): odd-value table at even 0-based indexes, even-value table at odd
ones. -/
def cfChecksum (l : List Char) : Nat :=
  (l.enum).foldl
    (fun total p =>
      total + if p.1 % 2 == 0 then cfOddValue p.2 else cfEvenValue p.2) 0

/-- `chr(ord("A") + (total % 26))`. -/
def checkLetter (total : Nat) : Char := Char.ofNat (65 + total % 26)

/-- `CodiceFiscaleValidator._validate_check_digit`. -/
def validateCheckDigit (cf : List Char) : Bool :=
  let decoded := decodeOmocodia cf
  cf.getD 15 ' ' == checkLetter (cfChecksum (decoded.take 15))

/-- `CodiceFiscaleValidator._extract_birthdate_and_gender`, parameterised
by the current date (`date.today()` is read only for century resolution).
The source binds `decoded_cf = self._decode_omocodia(cf)` once and the
century/day locals once each; they are inlined here. -/
def extractBirthdateAndGender (today : Date) (cf : List Char) :
    Option (Date × String) :=
  (parse2 ((decodeOmocodia cf).getD 6 ' ')
      ((decodeOmocodia cf).getD 7 ' ')).bind fun yy =>
  (cfMonthCode (cf.getD 8 ' ')).bind fun month =>
  (parse2 ((decodeOmocodia cf).getD 9 ' ')
      ((decodeOmocodia cf).getD 10 ' ')).bind fun dayRaw =>
  (mkDate
      (if yy > today.year % 100 then 1900 + yy
       else today.year / 100 * 100 + yy)
      month
      (if dayRaw > 40 then dayRaw - 40 else dayRaw)).bind fun bd =>
  some (bd, if dayRaw > 40 then "F" else "M")

/-- Python lexicographic comparison of two (month, day) tuples. -/
def tupleLt (a b : Nat × Nat) : Bool :=
  a.1 < b.1 || (a.1 == b.1 && a.2 < b.2)

/-- Age computation of `validate` step 3: whole years as of `today`,
with Python tuple comparison on (month, day). -/
def computeAge (today bd : Date) : Int :=
  (today.year : Int) - bd.year -
    (if tupleLt (today.month, today.day) (bd.month, bd.day) then 1 else 0)

/-- `is_foreign_country` from comuni.py: uppercased code starts with "Z". -/
def isForeignCountry (code : List Char) : Bool :=
  (code.map pyUpper).take 1 == ['Z']

/-- The external municipality directory: `get_municipality_info`. -/
def Directory : Type := List Char → Option (List Char × List Char)

/-- `CodiceFiscaleValidator.validate`, parameterised by the municipality
directory and the current date. The source binds `clean_value`, `age`,
`birth_place_code`, `birth_place_info` and the foreign flag in locals
used once or twice; they are inlined here. -/
def cfValidate (dir : Directory) (today : Date) (check_adult : Bool)
    (minimum_age : Int) (value : List Char) : CodiceFiscaleValidationResult :=
  if ¬ validateFormat (cfClean value) then
    { is_valid := false
      error_code := some "tax_id_cf_invalid_format"
      formatted_value := some (cfClean value) }
  else if ¬ validateCheckDigit (cfClean value) then
    { is_valid := false
      error_code := some "tax_id_cf_invalid_format"
      formatted_value := some (cfClean value) }
  else
    match extractBirthdateAndGender today (cfClean value) with
    | none =>
      { is_valid := false
        error_code := some "tax_id_cf_cannot_decode_birthdate"
        formatted_value := some (cfClean value) }
    | some (birthdate, gender) =>
      if check_adult ∧ computeAge today birthdate < minimum_age then
        { is_valid := false
          error_code := some "tax_id_cf_underage"
          formatted_value := some (cfClean value)
          birthdate := some birthdate
          age := some (computeAge today birthdate)
          gender := some gender
          birth_place_code := some (((cfClean value).drop 11).take 4)
          birth_place_name :=
            (dir (((cfClean value).drop 11).take 4)).map Prod.fst
          birth_place_province :=
            (dir (((cfClean value).drop 11).take 4)).map Prod.snd
          is_foreign_born :=
            some (isForeignCountry (((cfClean value).drop 11).take 4)) }
      else
        { is_valid := true
          formatted_value := some (cfClean value)
          birthdate := some birthdate
          age := some (computeAge today birthdate)
          gender := some gender
          birth_place_code := some (((cfClean value).drop 11).take 4)
          birth_place_name :=
            (dir (((cfClean value).drop 11).take 4)).map Prod.fst
          birth_place_province :=
            (dir (((cfClean value).drop 11).take 4)).map Prod.snd
          is_foreign_born :=
            some (isForeignCountry (((cfClean value).drop 11).take 4)) }

/-- A one-entry fragment of `CODICI_CATASTALI` (the `H501` row of
comuni.py), used to instantiate the external directory in witnesses. -/
def sampleDirectory : Directory := fun code =>
  if code = ['H', '5', '0', '1'] then
    some (['R', 'O', 'M', 'A'], ['R', 'M'])
  else none

/-! ## PartitaIvaValidator -/

/-- `PartitaIvaValidationResult`. -/
structure PartitaIvaValidationResult where
  is_valid : Bool
  error_code : Option String := none
  formatted_value : Option (List Char) := none
  is_temporary : Option Bool := none
  province_code : Option (List Char) := none
deriving DecidableEq, Repr

/-- `"".join(filter(str.isdigit, value.strip()))` (ASCII scope). -/
def pivaClean (value : List Char) : List Char :=
  (pyStrip value).filter isDigitC

/-- Contribution of the digit `d` at 0-based position `i` in
`PartitaIvaValidator._validate_check_digit`. -/
def pivaContribution (i d : Nat) : Nat :=
  if i % 2 == 0 then d
  else
    let doubled := d * 2
    if doubled ≥ 10 then doubled - 9 else doubled

/-- `PartitaIvaValidator._validate_check_digit`. -/
def pivaCheckDigitOk (vat_number : List Char) : Bool :=
  if vat_number.length ≠ 11 ∨ ¬ vat_number.all isDigitC then false
  else
    (vat_number.enum.foldl
      (fun total p => total + pivaContribution p.1 (p.2.toNat - 48)) 0)
      % 10 == 0

/-- `PartitaIvaValidator.validate`. -/
def pivaValidate (value : List Char) : PartitaIvaValidationResult :=
  let clean_value := pivaClean value
  if clean_value.length ≠ 11 then
    { is_valid := false
      error_code := some "tax_id_piva_invalid_length"
      formatted_value := some clean_value }
  else if ¬ pivaCheckDigitOk clean_value then
    { is_valid := false
      error_code := some "tax_id_piva_invalid_check_digit"
      formatted_value := some clean_value }
  else
    { is_valid := true
      formatted_value := some clean_value
      is_temporary := some (clean_value.take 2 == ['9', '9'])
      province_code := some ((clean_value.drop 7).take 3) }

/-! ## CodiceFiscaleGenerator -/

/-- `CodiceFiscaleGenerationResult`. -/
structure CodiceFiscaleGenerationResult where
  is_valid : Bool
  error_code : Option String := none
  codice_fiscale : Option (List Char) := none
deriving DecidableEq, Repr

/-- `VOWELS`. -/
def VOWELS : List Char := ['A', 'E', 'I', 'O', 'U']

/-- `CONSONANTS`. -/
def CONSONANTS : List Char :=
  ['B', 'C', 'D', 'F', 'G', 'H', 'J', 'K', 'L', 'M', 'N', 'P', 'Q', 'R',
   'S', 'T', 'V', 'W', 'X', 'Y', 'Z']

/-- Python `c.isalpha()` at ASCII scope. -/
def pyIsAlpha (c : Char) : Bool :=
  ('A' ≤ c && c ≤ 'Z') || ('a' ≤ c && c ≤ 'z')

/-- `CodiceFiscaleGenerator._clean_string`: uppercase, keep letters. -/
def cleanString (value : List Char) : List Char :=
  (value.map pyUpper).filter pyIsAlpha

/-- `CodiceFiscaleGenerator._extract_consonants`. -/
def extractConsonants (value : List Char) : List Char :=
  value.filter (fun c => c ∈ CONSONANTS)

/-- `CodiceFiscaleGenerator._extract_vowels`. -/
def extractVowels (value : List Char) : List Char :=
  value.filter (fun c => c ∈ VOWELS)

/-- `CodiceFiscaleGenerator._encode_surname`. -/
def encodeSurname (surname : List Char) : List Char :=
  let clean := cleanString surname
  let consonants := extractConsonants clean
  let vowels := extractVowels clean
  let code := consonants.take 3
  let code := if code.length < 3 then
      code ++ vowels.take (3 - code.length) else code
  let code := if code.length < 3 then
      code ++ List.replicate (3 - code.length) 'X' else code
  code.take 3

/-- `CodiceFiscaleGenerator._encode_name`. -/
def encodeName (name : List Char) : List Char :=
  let clean := cleanString name
  let consonants := extractConsonants clean
  let vowels := extractVowels clean
  let code :=
    if consonants.length ≥ 4 then
      [consonants.getD 0 ' ', consonants.getD 2 ' ', consonants.getD 3 ' ']
    else
      let code := consonants.take 3
      let code := if code.length < 3 then
          code ++ vowels.take (3 - code.length) else code
      if code.length < 3 then
        code ++ List.replicate (3 - code.length) 'X' else code
  code.take 3

/-- `str(birthdate.year)[-2:]` — note: Python slicing, not zero-padding. -/
def yearCode (year : Nat) : List Char :=
  let s := pyStrNat year
  s.drop (s.length - 2)

/-- `f"{day:02d}"` — decimal, zero-padded to at least two characters. -/
def format02d (n : Nat) : List Char :=
  let s := pyStrNat n
  if s.length < 2 then '0' :: s else s

/-- `CodiceFiscaleGenerator._encode_day`. -/
def encodeDay (day : Nat) (gender : String) : List Char :=
  format02d (if gender = "F" then day + 40 else day)

/-- `CodiceFiscaleGenerator._calculate_check_digit` (same loop as the
validator's, over the whole 15-character stem). -/
def calculateCheckDigit (cfStem : List Char) : Char :=
  checkLetter (cfChecksum cfStem)

/-- `CodiceFiscaleGenerator.generate`. The only statement inside the
`try` block that can raise is the lookup
`CF_MONTH_CODES_REVERSE[birthdate.month]` (a `KeyError`, reported through
the catch-all branch as `cf_gen_error: ...`); it is modelled by the
`none` case of `cfMonthCodeReverse`. -/
def cfGenerate (surname name : List Char) (birthdate : Date)
    (gender : String) (birth_place_code : List Char) :
    CodiceFiscaleGenerationResult :=
  if pyStrip surname = [] then
    { is_valid := false, error_code := some "cf_gen_invalid_surname" }
  else if pyStrip name = [] then
    { is_valid := false, error_code := some "cf_gen_invalid_name" }
  else if ¬ (gender = "M" ∨ gender = "F") then
    { is_valid := false, error_code := some "cf_gen_invalid_gender" }
  else
    if ((pyStrip birth_place_code).map pyUpper).length ≠ 4 then
      { is_valid := false
        error_code := some "cf_gen_invalid_birth_place_code" }
    else
      match cfMonthCodeReverse birthdate.month with
      | none =>
        { is_valid := false, error_code := some "cf_gen_error: KeyError" }
      | some month_code =>
        { is_valid := true
          codice_fiscale := some
            ((encodeSurname surname ++ encodeName name ++
              yearCode birthdate.year ++ [month_code] ++
              encodeDay birthdate.day gender ++
              (pyStrip birth_place_code).map pyUpper) ++
             [calculateCheckDigit
               (encodeSurname surname ++ encodeName name ++
                yearCode birthdate.year ++ [month_code] ++
                encodeDay birthdate.day gender ++
                (pyStrip birth_place_code).map pyUpper)]) }

/-! ## Supporting lemmas: characters -/

theorem toNat_ofNat_lt {n : Nat} (h : n < 55296) :
    (Char.ofNat n).toNat = n := by
  have hv : Nat.isValidChar n := Or.inl h
  unfold Char.ofNat
  rw [dif_pos hv]
  unfold Char.ofNatAux Char.toNat
  simp [UInt32.toNat, BitVec.toNat_ofNat]

theorem char_le_iff_toNat {a b : Char} : a ≤ b ↔ a.toNat ≤ b.toNat := by
  rw [Char.le_def]
  exact ⟨fun h => h, fun h => h⟩

theorem isDigitC_bounds {c : Char} (h : isDigitC c = true) :
    48 ≤ c.toNat ∧ c.toNat ≤ 57 := by
  simp [isDigitC, char_le_iff_toNat] at h
  exact ⟨h.1, h.2⟩

theorem isUpperAZ_bounds {c : Char} (h : isUpperAZ c = true) :
    65 ≤ c.toNat ∧ c.toNat ≤ 90 := by
  simp [isUpperAZ, char_le_iff_toNat] at h
  exact ⟨h.1, h.2⟩

theorem isDigitC_iff {c : Char} :
    isDigitC c = true ↔ ∃ k, k < 10 ∧ c = digitCh k := by
  constructor
  · intro h
    obtain ⟨h1, h2⟩ := isDigitC_bounds h
    refine ⟨c.toNat - 48, by omega, ?_⟩
    have he : 48 + (c.toNat - 48) = c.toNat := by omega
    rw [digitCh, he, Char.ofNat_toNat]
  · rintro ⟨k, hk, rfl⟩
    interval_cases k <;> decide

theorem digitVal_digitCh {k : Nat} (hk : k < 10) :
    digitVal (digitCh k) = some k := by
  interval_cases k <;> decide

theorem omoToDigit_eq_none_of_digit {c : Char} (h : isDigitC c = true) :
    omoToDigit c = none := by
  obtain ⟨k, hk, rfl⟩ := isDigitC_iff.mp h
  interval_cases k <;> decide

theorem isDigitC_digitCh {k : Nat} (hk : k < 10) :
    isDigitC (digitCh k) = true := by
  interval_cases k <;> decide

theorem pyUpper_eq_self_of_not_lower {c : Char}
    (h : ¬ ('a' ≤ c ∧ c ≤ 'z')) : pyUpper c = c := by
  rw [pyUpper, if_neg h]

theorem pyUpper_not_lower (c : Char) :
    ¬ ('a' ≤ pyUpper c ∧ pyUpper c ≤ 'z') := by
  by_cases h : 'a' ≤ c ∧ c ≤ 'z'
  · rw [pyUpper, if_pos h]
    rw [char_le_iff_toNat, char_le_iff_toNat] at h
    have h1 : c.toNat ≥ 97 := h.1
    have h2 : c.toNat ≤ 122 := h.2
    have h3 : (Char.ofNat (c.toNat - 32)).toNat = c.toNat - 32 :=
      toNat_ofNat_lt (by omega)
    rw [char_le_iff_toNat, char_le_iff_toNat]
    intro hcon
    have h4 := hcon.1
    rw [h3] at h4
    have : ('a' : Char).toNat = 97 := by decide
    omega
  · rw [pyUpper_eq_self_of_not_lower h]
    exact h

theorem pyUpper_idem (c : Char) : pyUpper (pyUpper c) = pyUpper c :=
  pyUpper_eq_self_of_not_lower (pyUpper_not_lower c)

theorem pyUpper_eq_self_of_alnum {c : Char} (h : isAlnumAZ09 c = true) :
    pyUpper c = c := by
  apply pyUpper_eq_self_of_not_lower
  rw [char_le_iff_toNat, char_le_iff_toNat]
  simp [isAlnumAZ09] at h
  intro hcon
  have hc1 : ('a' : Char).toNat = 97 := by decide
  have hc2 := hcon.1
  rcases h with h | h
  · have := (isUpperAZ_bounds h).2
    omega
  · have := (isDigitC_bounds h).2
    omega

theorem pyIsWs_toNat {d : Char} (h : pyIsWs d = true) : d.toNat ≤ 32 := by
  simp [pyIsWs] at h
  rcases h with ((((rfl | rfl) | rfl) | rfl) | rfl) | rfl <;> decide

theorem pyIsWs_pyUpper (c : Char) : pyIsWs (pyUpper c) = pyIsWs c := by
  by_cases h : 'a' ≤ c ∧ c ≤ 'z'
  · rw [pyUpper, if_pos h]
    rw [char_le_iff_toNat, char_le_iff_toNat] at h
    have h1 : c.toNat ≥ 97 := h.1
    have h2 : c.toNat ≤ 122 := h.2
    have h3 : (Char.ofNat (c.toNat - 32)).toNat = c.toNat - 32 :=
      toNat_ofNat_lt (by omega)
    have hl : pyIsWs (Char.ofNat (c.toNat - 32)) = false := by
      cases hp : pyIsWs (Char.ofNat (c.toNat - 32)) with
      | false => rfl
      | true => have := pyIsWs_toNat hp; omega
    have hr : pyIsWs c = false := by
      cases hp : pyIsWs c with
      | false => rfl
      | true => have := pyIsWs_toNat hp; omega
    rw [hl, hr]
  · rw [pyUpper_eq_self_of_not_lower h]

theorem isAlnum_not_ws {c : Char} (h : isAlnumAZ09 c = true) :
    pyIsWs c = false := by
  simp [isAlnumAZ09] at h
  cases hp : pyIsWs c with
  | false => rfl
  | true =>
    have h32 := pyIsWs_toNat hp
    rcases h with h | h
    · have := (isUpperAZ_bounds h).1
      omega
    · have := (isDigitC_bounds h).1
      omega

theorem isAlnum_not_space {c : Char} (h : isAlnumAZ09 c = true) :
    (c ≠ ' ') := by
  rintro rfl
  simp [isAlnumAZ09, isUpperAZ, isDigitC] at h

/-! ## Supporting lemmas: strings and cleaning -/

theorem dropWhile_eq_self_of_all {p : Char → Bool} {l : List Char}
    (h : ∀ c ∈ l, p c = false) : l.dropWhile p = l := by
  cases l with
  | nil => rfl
  | cons a t =>
    rw [List.dropWhile_cons]
    rw [h a (by simp)]
    simp

theorem dropWhile_dropWhile (p : Char → Bool) (l : List Char) :
    (l.dropWhile p).dropWhile p = l.dropWhile p := by
  induction l with
  | nil => rfl
  | cons a t ih =>
    rw [List.dropWhile_cons]
    cases hp : p a with
    | true => simpa using ih
    | false => simp [List.dropWhile_cons, hp]

theorem pyStrip_eq_self_of_all {l : List Char}
    (h : ∀ c ∈ l, pyIsWs c = false) : pyStrip l = l := by
  unfold pyStrip
  rw [dropWhile_eq_self_of_all h]
  rw [dropWhile_eq_self_of_all (fun c hc => h c (by simpa using hc))]
  exact l.reverse_reverse

theorem pyStrip_map_pyUpper (l : List Char) :
    pyStrip (l.map pyUpper) = (pyStrip l).map pyUpper := by
  unfold pyStrip
  have hcomp : (pyIsWs ∘ pyUpper) = pyIsWs := by
    funext c
    exact pyIsWs_pyUpper c
  rw [List.dropWhile_map, hcomp, ← List.map_reverse, List.dropWhile_map,
    hcomp, ← List.map_reverse]

theorem head?_dropWhile_not (p : Char → Bool) (l : List Char) :
    ∀ a, (l.dropWhile p).head? = some a → p a = false := by
  induction l with
  | nil => intro a h; simp at h
  | cons b t ih =>
    intro a h
    rw [List.dropWhile_cons] at h
    by_cases hp : p b = true
    · rw [if_pos hp] at h; exact ih a h
    · rw [if_neg hp] at h
      simp at h
      rw [← h]
      simpa using hp

theorem dropWhile_eq_self_of_head? {p : Char → Bool} {l : List Char}
    (h : ∀ a, l.head? = some a → p a = false) : l.dropWhile p = l := by
  cases l with
  | nil => rfl
  | cons a t =>
    rw [List.dropWhile_cons, h a rfl]
    simp

/-- The stripped string has no leading whitespace. -/
theorem pyStrip_no_leading (l : List Char) :
    (pyStrip l).dropWhile pyIsWs = pyStrip l := by
  apply dropWhile_eq_self_of_head?
  intro a ha
  unfold pyStrip at ha
  rw [List.head?_reverse] at ha
  set M := l.dropWhile pyIsWs with hM
  set X := M.reverse.dropWhile pyIsWs with hX
  have hsuf : X <:+ M.reverse := List.dropWhile_suffix pyIsWs
  obtain ⟨pre, hpre⟩ := hsuf
  have hXne : X ≠ [] := by
    intro hnil
    rw [hnil] at ha
    simp at ha
  have h1 : X.getLast? = M.reverse.getLast? := by
    rw [← hpre]
    exact (List.getLast?_append_of_ne_nil pre hXne).symm
  rw [h1, List.getLast?_reverse] at ha
  exact head?_dropWhile_not pyIsWs l a ha

theorem pyStrip_idem (l : List Char) : pyStrip (pyStrip l) = pyStrip l := by
  conv_lhs => rw [pyStrip]
  rw [pyStrip_no_leading]
  have htrail : (pyStrip l).reverse.dropWhile pyIsWs = (pyStrip l).reverse := by
    unfold pyStrip
    rw [List.reverse_reverse]
    exact dropWhile_dropWhile pyIsWs _
  rw [htrail, List.reverse_reverse]

theorem map_pyUpper_idem (l : List Char) :
    (l.map pyUpper).map pyUpper = l.map pyUpper := by
  rw [List.map_map]
  apply List.map_congr_left
  intro c _
  exact pyUpper_idem c

/-- The cleaning of `validate` is invariant under pre-normalising the
input: `clean(upper(strip(s))) = clean(s)`. -/
theorem cfClean_normalized (s : List Char) :
    cfClean ((pyStrip s).map pyUpper) = cfClean s := by
  unfold cfClean
  rw [pyStrip_map_pyUpper, pyStrip_idem, map_pyUpper_idem]

/-- A string of `[A-Z0-9]` characters is a fixed point of the cleaning. -/
theorem cfClean_eq_self_of_alnum {l : List Char}
    (h : ∀ c ∈ l, isAlnumAZ09 c = true) : cfClean l = l := by
  unfold cfClean removeSpaces
  rw [pyStrip_eq_self_of_all (fun c hc => isAlnum_not_ws (h c hc))]
  have hmap : l.map pyUpper = l := by
    apply List.map_congr_left ?_ |>.trans l.map_id
    intro c hc
    exact pyUpper_eq_self_of_alnum (h c hc)
  rw [hmap]
  rw [List.filter_eq_self]
  intro c hc
  simpa using isAlnum_not_space (h c hc)

theorem cfValidate_eq_of_clean_eq (dir : Directory) (today : Date)
    (check_adult : Bool) (minimum_age : Int) {s s' : List Char}
    (h : cfClean s = cfClean s') :
    cfValidate dir today check_adult minimum_age s
      = cfValidate dir today check_adult minimum_age s' := by
  unfold cfValidate
  rw [h]

/-! ## C5 -/

/-- C5: CF `validate` is total (it is a function into
`CodiceFiscaleValidationResult`; every Python failure path is a value of
the embedding) and case/whitespace-insensitive: validating `s` gives
exactly the same result record as validating `upper(strip(s))`, for every
directory, current date and option set. -/
theorem claim_C5_validate_case_whitespace_insensitive
    (dir : Directory) (today : Date) (check_adult : Bool)
    (minimum_age : Int) (s : List Char) :
    cfValidate dir today check_adult minimum_age s
      = cfValidate dir today check_adult minimum_age
          ((pyStrip s).map pyUpper) :=
  cfValidate_eq_of_clean_eq dir today check_adult minimum_age
    (cfClean_normalized s).symm

/-! ## Shape helpers -/

theorem length_eq_succ {α : Type} {l : List α} {n : Nat}
    (h : l.length = n + 1) : ∃ a t, l = a :: t ∧ t.length = n := by
  cases l with
  | nil => simp at h
  | cons a t => exact ⟨a, t, rfl, by simpa using h⟩

theorem shape11 {l : List Char} (h : l.length = 11) :
    ∃ c0 c1 c2 c3 c4 c5 c6 c7 c8 c9 c10,
      l = [c0, c1, c2, c3, c4, c5, c6, c7, c8, c9, c10] := by
  obtain ⟨c0, l, rfl, h1⟩ := length_eq_succ h
  obtain ⟨c1, l, rfl, h2⟩ := length_eq_succ h1
  obtain ⟨c2, l, rfl, h3⟩ := length_eq_succ h2
  obtain ⟨c3, l, rfl, h4⟩ := length_eq_succ h3
  obtain ⟨c4, l, rfl, h5⟩ := length_eq_succ h4
  obtain ⟨c5, l, rfl, h6⟩ := length_eq_succ h5
  obtain ⟨c6, l, rfl, h7⟩ := length_eq_succ h6
  obtain ⟨c7, l, rfl, h8⟩ := length_eq_succ h7
  obtain ⟨c8, l, rfl, h9⟩ := length_eq_succ h8
  obtain ⟨c9, l, rfl, h10⟩ := length_eq_succ h9
  obtain ⟨c10, l, rfl, h11⟩ := length_eq_succ h10
  rw [List.length_eq_zero] at h11
  subst h11
  exact ⟨c0, c1, c2, c3, c4, c5, c6, c7, c8, c9, c10, rfl⟩

theorem shape16 {l : List Char} (h : l.length = 16) :
    ∃ c0 c1 c2 c3 c4 c5 c6 c7 c8 c9 c10 c11 c12 c13 c14 c15,
      l = [c0, c1, c2, c3, c4, c5, c6, c7, c8, c9, c10, c11, c12, c13,
           c14, c15] := by
  obtain ⟨c0, l, rfl, h1⟩ := length_eq_succ h
  obtain ⟨c1, l, rfl, h2⟩ := length_eq_succ h1
  obtain ⟨c2, l, rfl, h3⟩ := length_eq_succ h2
  obtain ⟨c3, l, rfl, h4⟩ := length_eq_succ h3
  obtain ⟨c4, l, rfl, h5⟩ := length_eq_succ h4
  obtain ⟨c5, l, rfl, h6⟩ := length_eq_succ h5
  obtain ⟨c6, l, rfl, h7⟩ := length_eq_succ h6
  obtain ⟨c7, l, rfl, h8⟩ := length_eq_succ h7
  obtain ⟨c8, l, rfl, h9⟩ := length_eq_succ h8
  obtain ⟨c9, l, rfl, h10⟩ := length_eq_succ h9
  obtain ⟨c10, l, rfl, h11⟩ := length_eq_succ h10
  obtain ⟨c11, l, rfl, h12⟩ := length_eq_succ h11
  obtain ⟨c12, l, rfl, h13⟩ := length_eq_succ h12
  obtain ⟨c13, l, rfl, h14⟩ := length_eq_succ h13
  obtain ⟨c14, l, rfl, h15⟩ := length_eq_succ h14
  obtain ⟨c15, l, rfl, h16⟩ := length_eq_succ h15
  rw [List.length_eq_zero] at h16
  subst h16
  exact ⟨c0, c1, c2, c3, c4, c5, c6, c7, c8, c9, c10, c11, c12, c13, c14,
    c15, rfl⟩

theorem shape3 {l : List Char} (h : l.length = 3) :
    ∃ c0 c1 c2, l = [c0, c1, c2] := by
  obtain ⟨c0, l, rfl, h1⟩ := length_eq_succ h
  obtain ⟨c1, l, rfl, h2⟩ := length_eq_succ h1
  obtain ⟨c2, l, rfl, h3⟩ := length_eq_succ h2
  rw [List.length_eq_zero] at h3
  subst h3
  exact ⟨c0, c1, c2, rfl⟩

theorem shape4 {l : List Char} (h : l.length = 4) :
    ∃ c0 c1 c2 c3, l = [c0, c1, c2, c3] := by
  obtain ⟨c0, l, rfl, h1⟩ := length_eq_succ h
  obtain ⟨c1, l, rfl, h2⟩ := length_eq_succ h1
  obtain ⟨c2, l, rfl, h3⟩ := length_eq_succ h2
  obtain ⟨c3, l, rfl, h4⟩ := length_eq_succ h3
  rw [List.length_eq_zero] at h4
  subst h4
  exact ⟨c0, c1, c2, c3, rfl⟩

/-! ## C4 -/

/-- The per-position contribution as the specification words it: an even
0-indexed position contributes the digit directly; an odd one contributes
the digit doubled, minus 9 when the doubled value is at least 10. -/
def pivaSpecContribution (i d : Nat) : Nat :=
  if i % 2 = 0 then d else if 10 ≤ 2 * d then 2 * d - 9 else 2 * d

/-- The specification's checksum total over the 11 digit positions
(position 10, the check digit, included under the same rule). -/
def pivaSpecSum (l : List Char) : Nat :=
  ∑ i ∈ Finset.range 11, pivaSpecContribution i ((l.getD i '0').toNat - 48)

theorem pivaContribution_eq_spec (i d : Nat) :
    pivaContribution i d = pivaSpecContribution i d := by
  simp only [pivaContribution, pivaSpecContribution]
  split_ifs <;> simp_all <;> omega

theorem pivaCheckDigitOk_iff_spec {l : List Char} (hlen : l.length = 11)
    (hdig : ∀ c ∈ l, isDigitC c = true) :
    (pivaCheckDigitOk l = true ↔ pivaSpecSum l % 10 = 0) := by
  obtain ⟨c0, c1, c2, c3, c4, c5, c6, c7, c8, c9, c10, rfl⟩ := shape11 hlen
  have hall : List.all [c0, c1, c2, c3, c4, c5, c6, c7, c8, c9, c10]
      isDigitC = true := by
    rw [List.all_eq_true]
    exact hdig
  have hsum :
      (([c0, c1, c2, c3, c4, c5, c6, c7, c8, c9, c10].enum).foldl
        (fun total p => total + pivaContribution p.1 (p.2.toNat - 48)) 0)
      = pivaSpecSum [c0, c1, c2, c3, c4, c5, c6, c7, c8, c9, c10] := by
    simp [pivaSpecSum, Finset.sum_range_succ, List.enum, List.enumFrom,
      List.foldl, List.getD, List.get?, pivaContribution_eq_spec]
  rw [pivaCheckDigitOk]
  rw [if_neg (by simp [hall])]
  rw [hsum]
  exact beq_iff_eq

/-- C4: for every input whose cleaned form is exactly 11 digits, the
Partita IVA validator accepts iff the position-weighted digit total
(the check digit at position 10 included under the same even/odd rule) is
divisible by 10, and rejects with error kind
`tax_id_piva_invalid_check_digit` otherwise; in particular
`"00000000000"` validates successfully. -/
theorem claim_C4_piva_checksum :
    (∀ v : List Char, (pivaClean v).length = 11 →
      ((pivaValidate v).is_valid = true ↔
          pivaSpecSum (pivaClean v) % 10 = 0) ∧
      (pivaSpecSum (pivaClean v) % 10 ≠ 0 →
          (pivaValidate v).error_code
            = some "tax_id_piva_invalid_check_digit")) ∧
    (pivaValidate ("00000000000".toList)).is_valid = true := by
  constructor
  · intro v hlen
    have hdig : ∀ c ∈ pivaClean v, isDigitC c = true := by
      intro c hc
      exact (List.mem_filter.mp hc).2
    have hok := pivaCheckDigitOk_iff_spec hlen hdig
    constructor
    · rw [pivaValidate]
      rw [if_neg (by omega)]
      by_cases h : pivaCheckDigitOk (pivaClean v) = true
      · rw [if_neg (by simp [h])]
        simpa using hok.mp h
      · rw [if_pos (by simpa using h)]
        simp only [Bool.false_eq_true, false_iff]
        intro hsum
        exact h (hok.mpr hsum)
    · intro hsum
      rw [pivaValidate]
      rw [if_neg (by omega)]
      have h : ¬ pivaCheckDigitOk (pivaClean v) = true := by
        intro hk
        exact hsum (hok.mp hk)
      rw [if_pos (by simpa using h)]
  · decide

/-- Witness for C4: the repository's own test vector `"12345678901"` has
an 11-digit cleaned form, fails the mod-10 check and is rejected with
`tax_id_piva_invalid_check_digit`. -/
theorem claim_C4_piva_checksum_witness :
    (pivaValidate ("12345678901".toList)).error_code
      = some "tax_id_piva_invalid_check_digit" :=
  (claim_C4_piva_checksum.1 ("12345678901".toList) (by decide)).2 (by decide)

/-! ## C6 -/

theorem mkDate_some {y m d : Nat} {b : Date} (h : mkDate y m d = some b) :
    b = ⟨y, m, d⟩ := by
  unfold mkDate at h
  split at h
  · exact (Option.some_inj.mp h).symm
  · exact absurd h (by simp)

theorem extract_some_year (today : Date) (cf : List Char) {bd : Date}
    {g : String} {yy : Nat}
    (h : extractBirthdateAndGender today cf = some (bd, g))
    (hyy : parse2 ((decodeOmocodia cf).getD 6 ' ')
        ((decodeOmocodia cf).getD 7 ' ') = some yy) :
    bd.year = if yy > today.year % 100 then 1900 + yy
              else today.year / 100 * 100 + yy := by
  unfold extractBirthdateAndGender at h
  rw [hyy] at h
  rw [Option.some_bind] at h
  cases hm : cfMonthCode (cf.getD 8 ' ') with
  | none => rw [hm, Option.none_bind] at h; exact absurd h (by simp)
  | some month =>
    rw [hm, Option.some_bind] at h
    cases hd : parse2 ((decodeOmocodia cf).getD 9 ' ')
        ((decodeOmocodia cf).getD 10 ' ') with
    | none => rw [hd, Option.none_bind] at h; exact absurd h (by simp)
    | some dayRaw =>
      rw [hd, Option.some_bind] at h
      cases hmk : mkDate (if yy > today.year % 100 then 1900 + yy
          else today.year / 100 * 100 + yy) month
          (if dayRaw > 40 then dayRaw - 40 else dayRaw) with
      | none => rw [hmk, Option.none_bind] at h; exact absurd h (by simp)
      | some b =>
        rw [hmk, Option.some_bind] at h
        simp only [Option.some_inj, Prod.mk.injEq] at h
        have hb := mkDate_some hmk
        rw [← h.1, hb]

/-- C6: whenever validation decodes a birthdate, the decoded year is the
two-digit value `yy` at positions 6–7 (after omocodia decoding) resolved
against the current date: `1900 + yy` when `yy` exceeds the current
year's last two digits, and the current century's base year plus `yy`
otherwise. -/
theorem claim_C6_century_resolution (dir : Directory) (today : Date)
    (check_adult : Bool) (minimum_age : Int) (s : List Char) (bd : Date)
    (yy : Nat)
    (hbd : (cfValidate dir today check_adult minimum_age s).birthdate
        = some bd)
    (hyy : parse2 ((decodeOmocodia (cfClean s)).getD 6 ' ')
        ((decodeOmocodia (cfClean s)).getD 7 ' ') = some yy) :
    bd.year = if yy > today.year % 100 then 1900 + yy
              else today.year / 100 * 100 + yy := by
  unfold cfValidate at hbd
  split at hbd
  · simp at hbd
  · split at hbd
    · simp at hbd
    · cases hx : extractBirthdateAndGender today (cfClean s) with
      | none => rw [hx] at hbd; simp at hbd
      | some p =>
        obtain ⟨b, g⟩ := p
        rw [hx] at hbd
        simp only [] at hbd
        have hb : b = bd := by
          split at hbd <;> simpa using hbd
        rw [← hb]
        exact extract_some_year today (cfClean s) hx hyy

/-- Witness for C6 at the concrete CF `RSSMRA85M01H501Q` on 2025-10-12:
the year value 85 exceeds 25, so the decoded year is 1985. -/
theorem claim_C6_century_resolution_witness :
    (⟨1985, 8, 1⟩ : Date).year
      = if 85 > (⟨2025, 10, 12⟩ : Date).year % 100 then 1900 + 85
        else (⟨2025, 10, 12⟩ : Date).year / 100 * 100 + 85 :=
  claim_C6_century_resolution sampleDirectory ⟨2025, 10, 12⟩ false 18
    ("RSSMRA85M01H501Q".toList) ⟨1985, 8, 1⟩ 85 (by decide) (by decide)

/-! ## C7 -/

/-- C7: if the cleaned given name has 4 or more consonants, the name code
is the 1st, 3rd and 4th consonant (the 2nd is skipped); with fewer than 4
consonants the name code coincides with the surname encoding
(consonants, then vowels, then `'X'` padding, cut to 3). -/
theorem claim_C7_name_encoding (name : List Char) :
    (4 ≤ (extractConsonants (cleanString name)).length →
      encodeName name
        = [(extractConsonants (cleanString name)).getD 0 ' ',
           (extractConsonants (cleanString name)).getD 2 ' ',
           (extractConsonants (cleanString name)).getD 3 ' ']) ∧
    ((extractConsonants (cleanString name)).length < 4 →
      encodeName name = encodeSurname name) := by
  constructor
  · intro h4
    simp only [encodeName]
    rw [if_pos h4]
    simp
  · intro hlt
    simp only [encodeName, encodeSurname]
    rw [if_neg (by omega)]

/-- Witness for C7: `ROBERTO` has 4 consonants (R, B, R, T) and
`MARIO` has 2 (M, R). -/
theorem claim_C7_name_encoding_witness :
    (encodeName ("ROBERTO".toList)
      = [(extractConsonants (cleanString ("ROBERTO".toList))).getD 0 ' ',
         (extractConsonants (cleanString ("ROBERTO".toList))).getD 2 ' ',
         (extractConsonants (cleanString ("ROBERTO".toList))).getD 3 ' ']) ∧
    encodeName ("MARIO".toList) = encodeSurname ("MARIO".toList) :=
  ⟨(claim_C7_name_encoding _).1 (by decide),
   (claim_C7_name_encoding _).2 (by decide)⟩

/-! ## Evaluation lemmas for the validator's branches -/

theorem cfValidate_format_fail {s : List Char} (dir : Directory)
    (today : Date) (ca : Bool) (ma : Int)
    (hf : validateFormat (cfClean s) = false) :
    cfValidate dir today ca ma s =
      { is_valid := false
        error_code := some "tax_id_cf_invalid_format"
        formatted_value := some (cfClean s) } := by
  unfold cfValidate
  rw [hf]
  simp

theorem cfValidate_check_fail {s : List Char} (dir : Directory)
    (today : Date) (ca : Bool) (ma : Int)
    (hf : validateFormat (cfClean s) = true)
    (hc : validateCheckDigit (cfClean s) = false) :
    cfValidate dir today ca ma s =
      { is_valid := false
        error_code := some "tax_id_cf_invalid_format"
        formatted_value := some (cfClean s) } := by
  unfold cfValidate
  rw [hf, hc]
  simp

theorem cfValidate_extract_none {s : List Char} (dir : Directory)
    (today : Date) (ca : Bool) (ma : Int)
    (hf : validateFormat (cfClean s) = true)
    (hc : validateCheckDigit (cfClean s) = true)
    (hx : extractBirthdateAndGender today (cfClean s) = none) :
    cfValidate dir today ca ma s =
      { is_valid := false
        error_code := some "tax_id_cf_cannot_decode_birthdate"
        formatted_value := some (cfClean s) } := by
  unfold cfValidate
  rw [hf, hc, hx]
  simp

theorem cfValidate_underage {s : List Char} (dir : Directory)
    (today : Date) (ca : Bool) (ma : Int) {bd : Date} {g : String}
    (hf : validateFormat (cfClean s) = true)
    (hc : validateCheckDigit (cfClean s) = true)
    (hx : extractBirthdateAndGender today (cfClean s) = some (bd, g))
    (hage : ca = true ∧ computeAge today bd < ma) :
    cfValidate dir today ca ma s =
      { is_valid := false
        error_code := some "tax_id_cf_underage"
        formatted_value := some (cfClean s)
        birthdate := some bd
        age := some (computeAge today bd)
        gender := some g
        birth_place_code := some (((cfClean s).drop 11).take 4)
        birth_place_name :=
          (dir (((cfClean s).drop 11).take 4)).map Prod.fst
        birth_place_province :=
          (dir (((cfClean s).drop 11).take 4)).map Prod.snd
        is_foreign_born :=
          some (isForeignCountry (((cfClean s).drop 11).take 4)) } := by
  unfold cfValidate
  rw [hf, hc, hx]
  simp [hage.1, hage.2]

theorem cfValidate_success {s : List Char} (dir : Directory)
    (today : Date) (ca : Bool) (ma : Int) {bd : Date} {g : String}
    (hf : validateFormat (cfClean s) = true)
    (hc : validateCheckDigit (cfClean s) = true)
    (hx : extractBirthdateAndGender today (cfClean s) = some (bd, g))
    (hage : ¬ (ca = true ∧ computeAge today bd < ma)) :
    cfValidate dir today ca ma s =
      { is_valid := true
        formatted_value := some (cfClean s)
        birthdate := some bd
        age := some (computeAge today bd)
        gender := some g
        birth_place_code := some (((cfClean s).drop 11).take 4)
        birth_place_name :=
          (dir (((cfClean s).drop 11).take 4)).map Prod.fst
        birth_place_province :=
          (dir (((cfClean s).drop 11).take 4)).map Prod.snd
        is_foreign_born :=
          some (isForeignCountry (((cfClean s).drop 11).take 4)) } := by
  unfold cfValidate
  rw [hf, hc, hx]
  simp [hage]

/-! ## C9 -/

/-- C9: with the minimum-age check enabled and computed age below the
minimum, the result is the `tax_id_cf_underage` error and still carries
the decoded birthdate, age, sex and birthplace fields; every
`tax_id_cf_invalid_format` result instead carries none of the decoded
fields — only the cleaned input. -/
theorem claim_C9_underage_vs_format_fields :
    (∀ (dir : Directory) (today : Date) (minimum_age : Int) (s : List Char)
        (bd : Date) (g : String),
      validateFormat (cfClean s) = true →
      validateCheckDigit (cfClean s) = true →
      extractBirthdateAndGender today (cfClean s) = some (bd, g) →
      computeAge today bd < minimum_age →
      (cfValidate dir today true minimum_age s).error_code
          = some "tax_id_cf_underage" ∧
      (cfValidate dir today true minimum_age s).birthdate = some bd ∧
      (cfValidate dir today true minimum_age s).age
          = some (computeAge today bd) ∧
      (cfValidate dir today true minimum_age s).gender = some g ∧
      (cfValidate dir today true minimum_age s).birth_place_code
          = some (((cfClean s).drop 11).take 4) ∧
      (cfValidate dir today true minimum_age s).is_foreign_born
          = some (isForeignCountry (((cfClean s).drop 11).take 4))) ∧
    (∀ (dir : Directory) (today : Date) (check_adult : Bool)
        (minimum_age : Int) (s : List Char),
      (cfValidate dir today check_adult minimum_age s).error_code
          = some "tax_id_cf_invalid_format" →
      (cfValidate dir today check_adult minimum_age s).birthdate = none ∧
      (cfValidate dir today check_adult minimum_age s).age = none ∧
      (cfValidate dir today check_adult minimum_age s).gender = none ∧
      (cfValidate dir today check_adult minimum_age s).birth_place_code
          = none ∧
      (cfValidate dir today check_adult minimum_age s).birth_place_name
          = none ∧
      (cfValidate dir today check_adult minimum_age s).birth_place_province
          = none ∧
      (cfValidate dir today check_adult minimum_age s).is_foreign_born
          = none ∧
      (cfValidate dir today check_adult minimum_age s).formatted_value
          = some (cfClean s)) := by
  constructor
  · intro dir today minimum_age s bd g hf hc hx hage
    rw [cfValidate_underage dir today true minimum_age hf hc hx
      ⟨rfl, hage⟩]
    exact ⟨rfl, rfl, rfl, rfl, rfl, rfl⟩
  · intro dir today check_adult minimum_age s h
    cases hf : validateFormat (cfClean s) with
    | false =>
      rw [cfValidate_format_fail dir today check_adult minimum_age hf]
      exact ⟨rfl, rfl, rfl, rfl, rfl, rfl, rfl, rfl⟩
    | true =>
      cases hc : validateCheckDigit (cfClean s) with
      | false =>
        rw [cfValidate_check_fail dir today check_adult minimum_age hf hc]
        exact ⟨rfl, rfl, rfl, rfl, rfl, rfl, rfl, rfl⟩
      | true =>
        exfalso
        cases hx : extractBirthdateAndGender today (cfClean s) with
        | none =>
          rw [cfValidate_extract_none dir today check_adult minimum_age
            hf hc hx] at h
          simp at h
        | some p =>
          obtain ⟨bd, g⟩ := p
          by_cases hage : check_adult = true ∧
              computeAge today bd < minimum_age
          · rw [cfValidate_underage dir today check_adult minimum_age
              hf hc hx hage] at h
            simp at h
          · rw [cfValidate_success dir today check_adult minimum_age
              hf hc hx hage] at h
            simp at h

/-- Witness for C9: the underage branch on `RSSMRA20M01H501X`
(born 2020-08-01, age 5 on 2025-10-12) and the format-failure branch on
`"AAA"`. -/
theorem claim_C9_underage_vs_format_fields_witness :
    ((cfValidate sampleDirectory ⟨2025, 10, 12⟩ true 18
        ("RSSMRA20M01H501X".toList)).error_code
        = some "tax_id_cf_underage" ∧
     (cfValidate sampleDirectory ⟨2025, 10, 12⟩ true 18
        ("RSSMRA20M01H501X".toList)).birthdate = some ⟨2020, 8, 1⟩ ∧
     (cfValidate sampleDirectory ⟨2025, 10, 12⟩ true 18
        ("RSSMRA20M01H501X".toList)).age
        = some (computeAge ⟨2025, 10, 12⟩ ⟨2020, 8, 1⟩) ∧
     (cfValidate sampleDirectory ⟨2025, 10, 12⟩ true 18
        ("RSSMRA20M01H501X".toList)).gender = some "M" ∧
     (cfValidate sampleDirectory ⟨2025, 10, 12⟩ true 18
        ("RSSMRA20M01H501X".toList)).birth_place_code
        = some (((cfClean ("RSSMRA20M01H501X".toList)).drop 11).take 4) ∧
     (cfValidate sampleDirectory ⟨2025, 10, 12⟩ true 18
        ("RSSMRA20M01H501X".toList)).is_foreign_born
        = some (isForeignCountry
            (((cfClean ("RSSMRA20M01H501X".toList)).drop 11).take 4))) ∧
    ((cfValidate sampleDirectory ⟨2025, 10, 12⟩ false 18
        ("AAA".toList)).birthdate = none ∧
     (cfValidate sampleDirectory ⟨2025, 10, 12⟩ false 18
        ("AAA".toList)).age = none ∧
     (cfValidate sampleDirectory ⟨2025, 10, 12⟩ false 18
        ("AAA".toList)).gender = none ∧
     (cfValidate sampleDirectory ⟨2025, 10, 12⟩ false 18
        ("AAA".toList)).birth_place_code = none ∧
     (cfValidate sampleDirectory ⟨2025, 10, 12⟩ false 18
        ("AAA".toList)).birth_place_name = none ∧
     (cfValidate sampleDirectory ⟨2025, 10, 12⟩ false 18
        ("AAA".toList)).birth_place_province = none ∧
     (cfValidate sampleDirectory ⟨2025, 10, 12⟩ false 18
        ("AAA".toList)).is_foreign_born = none ∧
     (cfValidate sampleDirectory ⟨2025, 10, 12⟩ false 18
        ("AAA".toList)).formatted_value
        = some (cfClean ("AAA".toList))) :=
  ⟨claim_C9_underage_vs_format_fields.1 sampleDirectory ⟨2025, 10, 12⟩ 18
      ("RSSMRA20M01H501X".toList) ⟨2020, 8, 1⟩ "M"
      (by decide) (by decide) (by decide) (by decide),
   claim_C9_underage_vs_format_fields.2 sampleDirectory ⟨2025, 10, 12⟩
      false 18 ("AAA".toList) (by decide)⟩

/-! ## C10 -/

theorem cfMonthCodeReverse_isSome {m : Nat} (h1 : 1 ≤ m) (h2 : m ≤ 12) :
    ∃ c, cfMonthCodeReverse m = some c := by
  interval_cases m <;> exact ⟨_, rfl⟩

/-- C10: the generator's catch-all diagnostic branch is unreachable — any
inputs passing the four explicit checks (non-blank surname and name,
gender `M`/`F`, trimmed/uppercased birthplace code of length 4) with a
valid calendar birthdate generate successfully, with a non-`none`
`codice_fiscale`, because a valid date's month (1–12) is always found in
the reverse month table and no other encoding step can fail. -/
theorem claim_C10_generate_no_catch_all (surname name : List Char)
    (bd : Date) (g : String) (bpc : List Char)
    (hs : pyStrip surname ≠ [])
    (hn : pyStrip name ≠ [])
    (hg : g = "M" ∨ g = "F")
    (hb : ((pyStrip bpc).map pyUpper).length = 4)
    (hd : bd.Valid) :
    (cfGenerate surname name bd g bpc).is_valid = true ∧
    (cfGenerate surname name bd g bpc).codice_fiscale ≠ none := by
  obtain ⟨mc, hmc⟩ := cfMonthCodeReverse_isSome hd.2.2.1 hd.2.2.2.1
  unfold cfGenerate
  rw [if_neg (by simpa using hs), if_neg (by simpa using hn),
    if_neg (by simp only [not_not]; exact hg), if_neg (by omega), hmc]
  exact ⟨rfl, by simp⟩

/-- Witness for C10 at the README example record
(Rossi, Mario, 1985-08-01, M, H501). -/
theorem claim_C10_generate_no_catch_all_witness :
    (cfGenerate ("Rossi".toList) ("Mario".toList) ⟨1985, 8, 1⟩ "M"
        ("H501".toList)).is_valid = true ∧
    (cfGenerate ("Rossi".toList) ("Mario".toList) ⟨1985, 8, 1⟩ "M"
        ("H501".toList)).codice_fiscale ≠ none :=
  claim_C10_generate_no_catch_all ("Rossi".toList) ("Mario".toList)
    ⟨1985, 8, 1⟩ "M" ("H501".toList)
    (by decide) (by decide) (Or.inl rfl) (by decide) (by decide)

/-! ## C2 -/

theorem decodeOmocodiaAt_length (l : List Char) (p : Nat) :
    (decodeOmocodiaAt l p).length = l.length := by
  unfold decodeOmocodiaAt
  split
  · simp
  · rfl

theorem decodeOmocodia_length (l : List Char) :
    (decodeOmocodia l).length = l.length := by
  simp only [decodeOmocodia, OMOCODIA_POSITIONS, List.foldl,
    decodeOmocodiaAt_length]

/-- The expected check letter as the claim words it: omocodia-decode the
seven positions `{6,7,9,10,12,13,14}`, sum over the first 15 characters
the odd-table value at even 0-based indexes and the even-table value at
odd ones, reduce modulo 26, and map 0 to `'A'` through 25 to `'Z'`. -/
def specExpectedCheck (cf : List Char) : Char :=
  Char.ofNat (65 +
    (∑ i ∈ Finset.range 15,
      (if i % 2 = 0 then cfOddValue else cfEvenValue)
        ((decodeOmocodia cf).getD i ' ')) % 26)

theorem cfChecksum_take15_eq {d : List Char} (h : d.length = 16) :
    cfChecksum (d.take 15)
      = ∑ i ∈ Finset.range 15,
          (if i % 2 = 0 then cfOddValue else cfEvenValue) (d.getD i ' ') := by
  obtain ⟨c0, c1, c2, c3, c4, c5, c6, c7, c8, c9, c10, c11, c12, c13, c14,
    c15, rfl⟩ := shape16 h
  simp [cfChecksum, List.enum, List.enumFrom, List.foldl,
    Finset.sum_range_succ, List.getD, List.get?, List.take]

/-- C2: on every cleaned string passing the format pattern, the check
digit test succeeds exactly when character 16 equals the letter computed
by the specification's algorithm (`specExpectedCheck`); a mismatch is
reported with the same error kind as a format failure,
`tax_id_cf_invalid_format`. `RSSMRA85M01H501Q` passes both checks. -/
theorem claim_C2_check_digit :
    (∀ (dir : Directory) (today : Date) (check_adult : Bool)
        (minimum_age : Int) (s : List Char),
      cfClean s = s → validateFormat s = true →
      ((validateCheckDigit s = true ↔ s.getD 15 ' ' = specExpectedCheck s) ∧
       (validateCheckDigit s = false →
         (cfValidate dir today check_adult minimum_age s).error_code
           = some "tax_id_cf_invalid_format"))) ∧
    (validateFormat ("RSSMRA85M01H501Q".toList) = true ∧
     validateCheckDigit ("RSSMRA85M01H501Q".toList) = true ∧
     (cfValidate sampleDirectory ⟨2025, 10, 12⟩ false 18
        ("RSSMRA85M01H501Q".toList)).is_valid = true) := by
  constructor
  · intro dir today check_adult minimum_age s hclean hfmt
    have hlen : s.length = 16 := by
      have h2 := hfmt
      unfold validateFormat at h2
      rw [Bool.and_eq_true] at h2
      exact beq_iff_eq.mp h2.1
    have hdlen : (decodeOmocodia s).length = 16 := by
      rw [decodeOmocodia_length, hlen]
    constructor
    · unfold validateCheckDigit
      rw [beq_iff_eq]
      rw [cfChecksum_take15_eq hdlen]
      rfl
    · intro hcd
      rw [cfValidate_check_fail dir today check_adult minimum_age
        (by rw [hclean]; exact hfmt) (by rw [hclean]; exact hcd)]
  · exact ⟨by decide, by decide, by decide⟩

/-- Witness for C2 at `RSSMRA85M01H501A` (format passes, check digit
mismatch: the expected letter is `Q`, not `A`). -/
theorem claim_C2_check_digit_witness :
    ((validateCheckDigit ("RSSMRA85M01H501A".toList) = true ↔
        ("RSSMRA85M01H501A".toList).getD 15 ' '
          = specExpectedCheck ("RSSMRA85M01H501A".toList)) ∧
     (validateCheckDigit ("RSSMRA85M01H501A".toList) = false →
       (cfValidate sampleDirectory ⟨2025, 10, 12⟩ false 18
          ("RSSMRA85M01H501A".toList)).error_code
         = some "tax_id_cf_invalid_format")) :=
  claim_C2_check_digit.1 sampleDirectory ⟨2025, 10, 12⟩ false 18
    ("RSSMRA85M01H501A".toList) (by decide) (by decide)

/-! ## C8 -/

/-- C8 (divergence witness): the year code is `str(year)[-2:]`, which
does not zero-pad years below 10. For the valid calendar birthdate
0005-03-01 the generator accepts the record but emits the one-character
year field `"5"` and a 15-character Codice Fiscale, while the
specification requires the zero-padded field `"05"` and total length 16
(the generator's own day encoder `format02d` shows the intended
padding). -/
theorem claim_C8_year_code_divergence :
    yearCode 5 = ['5'] ∧
    format02d 5 = ['0', '5'] ∧
    (cfGenerate ("Rossi".toList) ("Mario".toList) ⟨5, 3, 1⟩ "M"
        ("H501".toList)).is_valid = true ∧
    (cfGenerate ("Rossi".toList) ("Mario".toList) ⟨5, 3, 1⟩ "M"
        ("H501".toList)).codice_fiscale
      = some ['R', 'S', 'S', 'M', 'R', 'A', '5', 'C', '0', '1', 'H', '5',
              '0', '1', 'V'] ∧
    (['R', 'S', 'S', 'M', 'R', 'A', '5', 'C', '0', '1', 'H', '5', '0',
      '1', 'V'] : List Char).length = 15 := by
  refine ⟨by decide, by decide, by decide, by decide, by decide⟩

/-! ## C3: omocodia substitution and its interaction with decoding -/

theorem getD_set_ne {l : List Char} {p q : Nat} {a : Char} (hne : p ≠ q) :
    (l.set p a).getD q ' ' = l.getD q ' ' := by
  rw [List.getD_eq_getElem?_getD, List.getElem?_set_ne hne,
    ← List.getD_eq_getElem?_getD]

theorem getD_set_self {l : List Char} {p : Nat} {a : Char}
    (h : p < l.length) : (l.set p a).getD p ' ' = a := by
  rw [List.getD_eq_getElem?_getD, List.getElem?_set_eq_of_lt a h]
  rfl

theorem alistGet_some_elim {α β : Type} [BEq α] {l : List (α × β)} {k : α}
    {v : β} (h : alistGet l k = some v) :
    ∃ pr ∈ l, (pr.1 == k) = true ∧ pr.2 = v := by
  unfold alistGet at h
  cases hf : l.find? (fun p => p.1 == k) with
  | none => rw [hf] at h; exact Option.noConfusion h
  | some pr =>
    rw [hf] at h
    have hpred : (pr.1 == k) = true := by
      have hp := List.find?_some hf
      simpa using hp
    exact ⟨pr, List.mem_of_find?_eq_some hf, hpred, Option.some.inj h⟩

theorem digitToOmo_some_isDigit {c x : Char} (h : digitToOmo c = some x) :
    isDigitC c = true := by
  obtain ⟨pr, hmem, hk, _⟩ := alistGet_some_elim h
  have hall : ∀ q ∈ CF_OMOCODIA_DIGITS, isDigitC q.1 = true := by decide
  rw [← beq_iff_eq.mp hk]
  exact hall pr hmem

theorem digitToOmo_some_isUpper {c x : Char} (h : digitToOmo c = some x) :
    isUpperAZ x = true := by
  obtain ⟨pr, hmem, _, hv⟩ := alistGet_some_elim h
  have hall : ∀ q ∈ CF_OMOCODIA_DIGITS, isUpperAZ q.2 = true := by decide
  rw [← hv]
  exact hall pr hmem

theorem omoToDigit_some_isDigit {c d : Char} (h : omoToDigit c = some d) :
    isDigitC d = true := by
  obtain ⟨pr, hmem, _, hv⟩ := alistGet_some_elim h
  have hall : ∀ q ∈ CF_OMOCODIA_CHARS, isDigitC q.2 = true := by decide
  rw [← hv]
  exact hall pr hmem

theorem omoToDigit_digitToOmo {c x : Char} (h : digitToOmo c = some x) :
    omoToDigit x = some c := by
  obtain ⟨pr, hmem, hk, hv⟩ := alistGet_some_elim h
  have hall : ∀ q ∈ CF_OMOCODIA_DIGITS, omoToDigit q.2 = some q.1 := by
    decide
  rw [← hv, ← beq_iff_eq.mp hk]
  exact hall pr hmem

theorem omoToDigit_some_key_isUpper {c x : Char}
    (h : omoToDigit c = some x) : isUpperAZ c = true := by
  obtain ⟨pr, hmem, hk, _⟩ := alistGet_some_elim h
  have hall : ∀ q ∈ CF_OMOCODIA_CHARS, isUpperAZ q.1 = true := by decide
  rw [← beq_iff_eq.mp hk]
  exact hall pr hmem

theorem digitToOmo_eq_none_of_not_digit {c : Char}
    (h : isDigitC c = false) : digitToOmo c = none := by
  cases hd : digitToOmo c with
  | none => rfl
  | some x =>
    rw [digitToOmo_some_isDigit hd] at h
    exact absurd h (by simp)

theorem isUpperAZ_not_digit {c : Char} (h : isUpperAZ c = true) :
    isDigitC c = false := by
  obtain ⟨h1, h2⟩ := isUpperAZ_bounds h
  cases hd : isDigitC c with
  | false => rfl
  | true =>
    obtain ⟨h3, h4⟩ := isDigitC_bounds hd
    omega

/-- The digit-to-letter substitution character of the omocodia claim
(`0→L, …, 9→V`; characters outside the table are left unchanged). -/
def subCh (c : Char) : Char := (digitToOmo c).getD c

/-- The letter-to-digit decoding character used by `_decode_omocodia`. -/
def decCh (c : Char) : Char := (omoToDigit c).getD c

/-- Replace the digit at position `p` by its omocodia substitute letter.
This is the encoding operation the claim quantifies over. -/
def omoSubstAt (l : List Char) (p : Nat) : List Char :=
  match digitToOmo (l.getD p ' ') with
  | some c => l.set p c
  | none => l

/-- Apply the omocodia substitution at a chosen list of positions. -/
def omoSubst (l : List Char) (ps : List Nat) : List Char :=
  ps.foldl omoSubstAt l

theorem subCh_subCh (c : Char) : subCh (subCh c) = subCh c := by
  unfold subCh
  cases h : digitToOmo c with
  | none => simp [h]
  | some x =>
    have hu := digitToOmo_some_isUpper h
    have hnone : digitToOmo x = none :=
      digitToOmo_eq_none_of_not_digit (isUpperAZ_not_digit hu)
    simp [h, hnone]

theorem decCh_decCh (c : Char) : decCh (decCh c) = decCh c := by
  unfold decCh
  cases h : omoToDigit c with
  | none => simp [h]
  | some d =>
    have hnone : omoToDigit d = none :=
      omoToDigit_eq_none_of_digit (omoToDigit_some_isDigit h)
    simp [h, hnone]

theorem decCh_subCh (c : Char) : decCh (subCh c) = decCh c := by
  unfold subCh decCh
  cases h : digitToOmo c with
  | none => simp [h]
  | some x =>
    have hrt : omoToDigit x = some c := omoToDigit_digitToOmo h
    have hnone : omoToDigit c = none :=
      omoToDigit_eq_none_of_digit (digitToOmo_some_isDigit h)
    simp [h, hrt, hnone]

theorem omoSubstAt_getD (l : List Char) (p q : Nat) :
    (omoSubstAt l p).getD q ' '
      = if q = p then subCh (l.getD q ' ') else l.getD q ' ' := by
  unfold omoSubstAt
  cases h : digitToOmo (l.getD p ' ') with
  | none =>
    by_cases hq : q = p
    · subst hq
      rw [if_pos rfl]
      unfold subCh
      rw [h]
      rfl
    · rw [if_neg hq]
  | some x =>
    have hp : p < l.length := by
      by_contra hc
      push_neg at hc
      rw [List.getD_eq_default _ _ hc] at h
      have hd := digitToOmo_some_isDigit h
      exact absurd hd (by decide)
    by_cases hq : q = p
    · subst hq
      rw [if_pos rfl, getD_set_self hp]
      unfold subCh
      rw [h]
      rfl
    · rw [if_neg hq, getD_set_ne (fun he => hq he.symm)]

theorem decodeOmocodiaAt_getD (l : List Char) (p q : Nat) :
    (decodeOmocodiaAt l p).getD q ' '
      = if q = p then decCh (l.getD q ' ') else l.getD q ' ' := by
  unfold decodeOmocodiaAt
  cases h : omoToDigit (l.getD p ' ') with
  | none =>
    by_cases hq : q = p
    · subst hq
      rw [if_pos rfl]
      unfold decCh
      rw [h]
      rfl
    · rw [if_neg hq]
  | some x =>
    have hp : p < l.length := by
      by_contra hc
      push_neg at hc
      rw [List.getD_eq_default _ _ hc] at h
      have hu := omoToDigit_some_key_isUpper h
      exact absurd hu (by decide)
    by_cases hq : q = p
    · subst hq
      rw [if_pos rfl, getD_set_self hp]
      unfold decCh
      rw [h]
      rfl
    · rw [if_neg hq, getD_set_ne (fun he => hq he.symm)]

theorem omoSubstAt_length (l : List Char) (p : Nat) :
    (omoSubstAt l p).length = l.length := by
  unfold omoSubstAt
  split
  · simp
  · rfl

theorem omoSubst_length : ∀ (ps : List Nat) (l : List Char),
    (omoSubst l ps).length = l.length := by
  intro ps
  induction ps with
  | nil => intro l; rfl
  | cons p ps ih =>
    intro l
    show (omoSubst (omoSubstAt l p) ps).length = l.length
    rw [ih, omoSubstAt_length]

theorem omoSubst_getD : ∀ (ps : List Nat) (l : List Char) (q : Nat),
    (omoSubst l ps).getD q ' '
      = if q ∈ ps then subCh (l.getD q ' ') else l.getD q ' ' := by
  intro ps
  induction ps with
  | nil => intro l q; simp [omoSubst]
  | cons p ps ih =>
    intro l q
    show (omoSubst (omoSubstAt l p) ps).getD q ' ' = _
    rw [ih, omoSubstAt_getD]
    by_cases h1 : q ∈ ps
    · rw [if_pos h1, if_pos (List.mem_cons.mpr (Or.inr h1))]
      by_cases h2 : q = p
      · rw [if_pos h2, subCh_subCh]
      · rw [if_neg h2]
    · rw [if_neg h1]
      by_cases h2 : q = p
      · rw [if_pos h2, if_pos (List.mem_cons.mpr (Or.inl h2))]
      · rw [if_neg h2, if_neg (by simp [List.mem_cons, h1, h2])]

theorem decodeFold_getD : ∀ (ps : List Nat) (l : List Char) (q : Nat),
    ((ps.foldl decodeOmocodiaAt l).getD q ' ')
      = if q ∈ ps then decCh (l.getD q ' ') else l.getD q ' ' := by
  intro ps
  induction ps with
  | nil => intro l q; simp
  | cons p ps ih =>
    intro l q
    rw [List.foldl_cons, ih, decodeOmocodiaAt_getD]
    by_cases h1 : q ∈ ps
    · rw [if_pos h1, if_pos (List.mem_cons.mpr (Or.inr h1))]
      by_cases h2 : q = p
      · rw [if_pos h2, decCh_decCh]
      · rw [if_neg h2]
    · rw [if_neg h1]
      by_cases h2 : q = p
      · rw [if_pos h2, if_pos (List.mem_cons.mpr (Or.inl h2))]
      · rw [if_neg h2, if_neg (by simp [List.mem_cons, h1, h2])]

theorem decodeOmocodia_getD (l : List Char) (q : Nat) :
    (decodeOmocodia l).getD q ' '
      = if q ∈ OMOCODIA_POSITIONS then decCh (l.getD q ' ')
        else l.getD q ' ' :=
  decodeFold_getD OMOCODIA_POSITIONS l q

theorem list_eq_of_getD {l1 l2 : List Char} (hlen : l1.length = l2.length)
    (h : ∀ q, l1.getD q ' ' = l2.getD q ' ') : l1 = l2 := by
  apply List.ext_get hlen
  intro n h1 h2
  have hq := h n
  rw [List.getD_eq_getElem?_getD, List.getD_eq_getElem?_getD,
    List.getElem?_eq_getElem h1, List.getElem?_eq_getElem h2] at hq
  simpa using hq

theorem decodeOmocodia_omoSubst {l : List Char} {ps : List Nat}
    (hps : ∀ p ∈ ps, p ∈ OMOCODIA_POSITIONS) :
    decodeOmocodia (omoSubst l ps) = decodeOmocodia l := by
  apply list_eq_of_getD
  · rw [decodeOmocodia_length, omoSubst_length, decodeOmocodia_length]
  · intro q
    rw [decodeOmocodia_getD, decodeOmocodia_getD, omoSubst_getD]
    by_cases hq : q ∈ ps
    · rw [if_pos hq, if_pos (hps q hq), if_pos (hps q hq), decCh_subCh]
    · rw [if_neg hq]

theorem cfPatternMatch_getD {l : List Char} (hlen : l.length = 16) :
    cfPatternMatch l = true ↔
      ∀ i, i < 16 →
        (if i ∈ OMOCODIA_POSITIONS then isAlnumAZ09 (l.getD i ' ')
         else isUpperAZ (l.getD i ' ')) = true := by
  obtain ⟨c0, c1, c2, c3, c4, c5, c6, c7, c8, c9, c10, c11, c12, c13, c14,
    c15, rfl⟩ := shape16 hlen
  constructor
  · intro h i hi
    simp only [cfPatternMatch, Bool.and_eq_true] at h
    interval_cases i <;>
      simp only [OMOCODIA_POSITIONS, List.mem_cons, List.not_mem_nil,
        List.getD, List.get?, if_pos, if_neg, Option.getD_some] <;>
      simp <;> tauto
  · intro h
    simp only [cfPatternMatch, Bool.and_eq_true]
    refine ⟨⟨⟨⟨⟨⟨⟨⟨⟨⟨⟨⟨⟨⟨⟨?_, ?_⟩, ?_⟩, ?_⟩, ?_⟩, ?_⟩, ?_⟩, ?_⟩, ?_⟩,
      ?_⟩, ?_⟩, ?_⟩, ?_⟩, ?_⟩, ?_⟩, ?_⟩ <;>
    · first
      | (exact (by simpa using h 0 (by omega)))
      | (exact (by simpa using h 1 (by omega)))
      | (exact (by simpa using h 2 (by omega)))
      | (exact (by simpa using h 3 (by omega)))
      | (exact (by simpa using h 4 (by omega)))
      | (exact (by simpa using h 5 (by omega)))
      | (exact (by simpa using h 6 (by omega)))
      | (exact (by simpa using h 7 (by omega)))
      | (exact (by simpa using h 8 (by omega)))
      | (exact (by simpa using h 9 (by omega)))
      | (exact (by simpa using h 10 (by omega)))
      | (exact (by simpa using h 11 (by omega)))
      | (exact (by simpa using h 12 (by omega)))
      | (exact (by simpa using h 13 (by omega)))
      | (exact (by simpa using h 14 (by omega)))
      | (exact (by simpa using h 15 (by omega)))

theorem isAlnumAZ09_subCh {c : Char} (h : isAlnumAZ09 c = true) :
    isAlnumAZ09 (subCh c) = true := by
  unfold subCh
  cases hd : digitToOmo c with
  | none => simpa using h
  | some x =>
    have hu := digitToOmo_some_isUpper hd
    simp [isAlnumAZ09, hu]

theorem validateFormat_length {s : List Char}
    (hf : validateFormat s = true) : s.length = 16 := by
  unfold validateFormat at hf
  rw [Bool.and_eq_true] at hf
  exact beq_iff_eq.mp hf.1

theorem validateFormat_pattern {s : List Char}
    (hf : validateFormat s = true) : cfPatternMatch s = true := by
  unfold validateFormat at hf
  rw [Bool.and_eq_true] at hf
  exact hf.2

theorem validateFormat_omoSubst {s : List Char} {ps : List Nat}
    (hps : ∀ p ∈ ps, p ∈ OMOCODIA_POSITIONS)
    (hf : validateFormat s = true) :
    validateFormat (omoSubst s ps) = true := by
  have hlen : s.length = 16 := validateFormat_length hf
  have hlen' : (omoSubst s ps).length = 16 := by
    rw [omoSubst_length]; exact hlen
  unfold validateFormat
  rw [Bool.and_eq_true]
  constructor
  · simp [hlen']
  · apply (cfPatternMatch_getD hlen').mpr
    intro i hi
    have hcl := (cfPatternMatch_getD hlen).mp (validateFormat_pattern hf)
      i hi
    rw [omoSubst_getD]
    by_cases hip : i ∈ ps
    · have hipos := hps i hip
      rw [if_pos hip]
      rw [if_pos hipos] at hcl ⊢
      exact isAlnumAZ09_subCh hcl
    · rw [if_neg hip]
      exact hcl

theorem forall_mem_of_getD {l : List Char} {P : Char → Prop}
    (h : ∀ i, i < l.length → P (l.getD i ' ')) : ∀ c ∈ l, P c := by
  intro c hc
  obtain ⟨i, hi, rfl⟩ := List.mem_iff_getElem.mp hc
  have := h i hi
  rwa [List.getD_eq_getElem?_getD, List.getElem?_eq_getElem hi] at this

theorem validateFormat_all_alnum {s : List Char}
    (hf : validateFormat s = true) : ∀ c ∈ s, isAlnumAZ09 c = true := by
  have hlen := validateFormat_length hf
  apply forall_mem_of_getD
  intro i hi
  rw [hlen] at hi
  have hcl := (cfPatternMatch_getD hlen).mp (validateFormat_pattern hf) i hi
  by_cases hip : i ∈ OMOCODIA_POSITIONS
  · rwa [if_pos hip] at hcl
  · rw [if_neg hip] at hcl
    unfold isAlnumAZ09
    rw [hcl]
    rfl

theorem validateCheckDigit_omoSubst {s : List Char} {ps : List Nat}
    (hps : ∀ p ∈ ps, p ∈ OMOCODIA_POSITIONS)
    (hc : validateCheckDigit s = true) :
    validateCheckDigit (omoSubst s ps) = true := by
  have h15 : 15 ∉ ps := fun hin => by
    have := hps 15 hin
    simp [OMOCODIA_POSITIONS] at this
  unfold validateCheckDigit at hc ⊢
  rw [decodeOmocodia_omoSubst hps, omoSubst_getD, if_neg h15]
  exact hc

theorem extract_omoSubst (today : Date) {s : List Char} {ps : List Nat}
    (hps : ∀ p ∈ ps, p ∈ OMOCODIA_POSITIONS) :
    extractBirthdateAndGender today (omoSubst s ps)
      = extractBirthdateAndGender today s := by
  have h8 : 8 ∉ ps := fun hin => by
    have := hps 8 hin
    simp [OMOCODIA_POSITIONS] at this
  unfold extractBirthdateAndGender
  rw [decodeOmocodia_omoSubst hps, omoSubst_getD, if_neg h8]

theorem cfValidate_valid_inversion {dir : Directory} {today : Date}
    {ca : Bool} {ma : Int} {s : List Char}
    (h : (cfValidate dir today ca ma s).is_valid = true) :
    validateFormat (cfClean s) = true ∧
    validateCheckDigit (cfClean s) = true ∧
    ∃ bd g, extractBirthdateAndGender today (cfClean s) = some (bd, g) := by
  cases hf : validateFormat (cfClean s) with
  | false =>
    rw [cfValidate_format_fail dir today ca ma hf] at h
    exact absurd h (by simp)
  | true =>
    cases hc : validateCheckDigit (cfClean s) with
    | false =>
      rw [cfValidate_check_fail dir today ca ma hf hc] at h
      exact absurd h (by simp)
    | true =>
      cases hx : extractBirthdateAndGender today (cfClean s) with
      | none =>
        rw [cfValidate_extract_none dir today ca ma hf hc hx] at h
        exact absurd h (by simp)
      | some p =>
        obtain ⟨bd, g⟩ := p
        exact ⟨rfl, rfl, bd, g, rfl⟩

/-! ## C3 -/

/-- C3: for a cleaned CF accepted as valid, substituting the digits at
any chosen positions among `{6,7,9,10,12,13,14}` by their omocodia
letters (`0→L,…,9→V`, the source's `CF_OMOCODIA_DIGITS` table) yields a
CF that still validates, with the same check character at position 15
and the same decoded birthdate and sex. -/
theorem claim_C3_omocodia_invariance (dir : Directory) (today : Date)
    (s : List Char) (ps : List Nat)
    (hclean : cfClean s = s)
    (hvalid : (cfValidate dir today false 18 s).is_valid = true)
    (hps : ∀ p ∈ ps, p ∈ OMOCODIA_POSITIONS) :
    (cfValidate dir today false 18 (omoSubst s ps)).is_valid = true ∧
    (omoSubst s ps).getD 15 ' ' = s.getD 15 ' ' ∧
    (cfValidate dir today false 18 (omoSubst s ps)).birthdate
      = (cfValidate dir today false 18 s).birthdate ∧
    (cfValidate dir today false 18 (omoSubst s ps)).gender
      = (cfValidate dir today false 18 s).gender := by
  obtain ⟨hf, hc, bd, g, hx⟩ := cfValidate_valid_inversion hvalid
  rw [hclean] at hf hc hx
  have h15 : 15 ∉ ps := fun hin => by
    have := hps 15 hin
    simp [OMOCODIA_POSITIONS] at this
  have hf' : validateFormat (omoSubst s ps) = true :=
    validateFormat_omoSubst hps hf
  have hclean' : cfClean (omoSubst s ps) = omoSubst s ps :=
    cfClean_eq_self_of_alnum (validateFormat_all_alnum hf')
  have hc' : validateCheckDigit (omoSubst s ps) = true :=
    validateCheckDigit_omoSubst hps hc
  have hx' : extractBirthdateAndGender today (omoSubst s ps)
      = some (bd, g) := by
    rw [extract_omoSubst today hps]
    exact hx
  have hres' := cfValidate_success dir today false 18
    (s := omoSubst s ps)
    (by rw [hclean']; exact hf') (by rw [hclean']; exact hc')
    (by rw [hclean']; exact hx') (by simp)
  have hres := cfValidate_success dir today false 18 (s := s)
    (by rw [hclean]; exact hf) (by rw [hclean]; exact hc)
    (by rw [hclean]; exact hx) (by simp)
  refine ⟨?_, ?_, ?_, ?_⟩
  · rw [hres']
  · rw [omoSubst_getD, if_neg h15]
  · rw [hres', hres]
  · rw [hres', hres]

/-- Witness for C3: substituting positions 9 and 14 of
`RSSMRA85M01H501Q` (digits `0` and `1`, becoming `L` and `M`). -/
theorem claim_C3_omocodia_invariance_witness :
    (cfValidate sampleDirectory ⟨2025, 10, 12⟩ false 18
        (omoSubst ("RSSMRA85M01H501Q".toList) [9, 14])).is_valid = true ∧
    (omoSubst ("RSSMRA85M01H501Q".toList) [9, 14]).getD 15 ' '
      = ("RSSMRA85M01H501Q".toList).getD 15 ' ' ∧
    (cfValidate sampleDirectory ⟨2025, 10, 12⟩ false 18
        (omoSubst ("RSSMRA85M01H501Q".toList) [9, 14])).birthdate
      = (cfValidate sampleDirectory ⟨2025, 10, 12⟩ false 18
          ("RSSMRA85M01H501Q".toList)).birthdate ∧
    (cfValidate sampleDirectory ⟨2025, 10, 12⟩ false 18
        (omoSubst ("RSSMRA85M01H501Q".toList) [9, 14])).gender
      = (cfValidate sampleDirectory ⟨2025, 10, 12⟩ false 18
          ("RSSMRA85M01H501Q".toList)).gender :=
  claim_C3_omocodia_invariance sampleDirectory ⟨2025, 10, 12⟩
    ("RSSMRA85M01H501Q".toList) [9, 14] (by decide) (by decide)
    (by decide)

/-! ## C1 helper lemmas: shapes of the generated parts -/

theorem encodeSurname_length (s : List Char) :
    (encodeSurname s).length = 3 := by
  simp only [encodeSurname]
  split_ifs with h1 h2 h2 <;>
    simp_all [List.length_take, List.length_append,
      List.length_replicate] <;> omega

theorem mem_extractConsonants {l : List Char} {c : Char}
    (h : c ∈ extractConsonants l) : isUpperAZ c = true := by
  have hm := List.mem_filter.mp h
  have hc : c ∈ CONSONANTS := by simpa using hm.2
  have hall : ∀ x ∈ CONSONANTS, isUpperAZ x = true := by decide
  exact hall c hc

theorem mem_extractVowels {l : List Char} {c : Char}
    (h : c ∈ extractVowels l) : isUpperAZ c = true := by
  have hm := List.mem_filter.mp h
  have hc : c ∈ VOWELS := by simpa using hm.2
  have hall : ∀ x ∈ VOWELS, isUpperAZ x = true := by decide
  exact hall c hc

theorem encodeSurname_upper (s : List Char) :
    ∀ c ∈ encodeSurname s, isUpperAZ c = true := by
  intro c hc
  simp only [encodeSurname] at hc
  have hc2 := List.mem_of_mem_take hc
  split_ifs at hc2 with h1 h2 h2
  all_goals
    first
    | (rcases List.mem_append.mp hc2 with hm | hm
       · rcases List.mem_append.mp hm with hm2 | hm2
         · exact mem_extractConsonants (List.mem_of_mem_take hm2)
         · exact mem_extractVowels (List.mem_of_mem_take hm2)
       · rw [List.eq_of_mem_replicate hm]; decide)
    | (rcases List.mem_append.mp hc2 with hm | hm
       · exact mem_extractConsonants (List.mem_of_mem_take hm)
       · first
         | exact mem_extractVowels (List.mem_of_mem_take hm)
         | (rw [List.eq_of_mem_replicate hm]; decide))
    | exact mem_extractConsonants (List.mem_of_mem_take hc2)

theorem encodeName_length (s : List Char) : (encodeName s).length = 3 := by
  simp only [encodeName]
  split_ifs with h1 h2 h3 h3 <;>
    simp_all [List.length_take, List.length_append,
      List.length_replicate] <;> omega

theorem encodeName_upper (s : List Char) :
    ∀ c ∈ encodeName s, isUpperAZ c = true := by
  intro c hc
  simp only [encodeName] at hc
  have hc2 := List.mem_of_mem_take hc
  split_ifs at hc2 with h1 h2 h3 h3
  · simp only [List.mem_cons, List.not_mem_nil, or_false] at hc2
    have hget : ∀ i, i < (extractConsonants (cleanString s)).length →
        isUpperAZ ((extractConsonants (cleanString s)).getD i ' ')
          = true := by
      intro i hi
      apply mem_extractConsonants
      rw [List.getD_eq_getElem?_getD, List.getElem?_eq_getElem hi]
      exact List.getElem_mem hi
    rcases hc2 with rfl | rfl | rfl <;> exact hget _ (by omega)
  all_goals
    first
    | (rcases List.mem_append.mp hc2 with hm | hm
       · rcases List.mem_append.mp hm with hm2 | hm2
         · exact mem_extractConsonants (List.mem_of_mem_take hm2)
         · exact mem_extractVowels (List.mem_of_mem_take hm2)
       · rw [List.eq_of_mem_replicate hm]; decide)
    | (rcases List.mem_append.mp hc2 with hm | hm
       · exact mem_extractConsonants (List.mem_of_mem_take hm)
       · first
         | exact mem_extractVowels (List.mem_of_mem_take hm)
         | (rw [List.eq_of_mem_replicate hm]; decide))
    | exact mem_extractConsonants (List.mem_of_mem_take hc2)

theorem yearCode_eq {y : Nat} (h : 10 ≤ y) :
    yearCode y = [digitCh (y / 10 % 10), digitCh (y % 10)] := by
  simp only [yearCode, pyStrNat]
  rw [if_neg (by omega)]
  rw [natToRevDigits_pos (by omega : 0 < y),
    natToRevDigits_pos (by omega : 0 < y / 10)]
  rw [List.reverse_cons, List.reverse_cons, List.append_assoc]
  have hlen : ((natToRevDigits (y / 10 / 10)).reverse ++
      ([digitCh (y / 10 % 10)] ++ [digitCh (y % 10)])).length - 2
      = (natToRevDigits (y / 10 / 10)).reverse.length := by
    simp
  rw [hlen]
  exact List.drop_left _ _

theorem format02d_eq {d : Nat} (h : d ≤ 99) :
    format02d d = [digitCh (d / 10), digitCh (d % 10)] := by
  rcases Nat.eq_zero_or_pos d with rfl | hpos
  · decide
  rcases Nat.lt_or_ge d 10 with h10 | h10
  · have hz : d / 10 = 0 := by omega
    have hs : pyStrNat d = [digitCh (d % 10)] := by
      unfold pyStrNat
      rw [if_neg (by omega), natToRevDigits_pos hpos, hz]
      rfl
    simp only [format02d]
    rw [hs]
    rw [if_pos (by simp)]
    have h0 : digitCh (d / 10) = '0' := by rw [hz]; rfl
    rw [h0]
  · have hz : d / 10 / 10 = 0 := by omega
    have hm : d / 10 % 10 = d / 10 := by omega
    have hs : pyStrNat d = [digitCh (d / 10), digitCh (d % 10)] := by
      unfold pyStrNat
      rw [if_neg (by omega), natToRevDigits_pos (by omega : 0 < d),
        natToRevDigits_pos (by omega : 0 < d / 10), hz, hm]
      rfl
    simp only [format02d]
    rw [hs]
    rw [if_neg (by simp)]

theorem parse2_digits {a b : Nat} (ha : a < 10) (hb : b < 10) :
    parse2 (digitCh a) (digitCh b) = some (10 * a + b) := by
  unfold parse2
  rw [digitVal_digitCh ha, digitVal_digitCh hb]

theorem cfMonth_roundtrip {m : Nat} (h1 : 1 ≤ m) (h2 : m ≤ 12) :
    ∃ mc, cfMonthCodeReverse m = some mc ∧ cfMonthCode mc = some m ∧
      isUpperAZ mc = true := by
  interval_cases m <;>
    first
    | exact ⟨'A', by decide, by decide, by decide⟩
    | exact ⟨'B', by decide, by decide, by decide⟩
    | exact ⟨'C', by decide, by decide, by decide⟩
    | exact ⟨'D', by decide, by decide, by decide⟩
    | exact ⟨'E', by decide, by decide, by decide⟩
    | exact ⟨'H', by decide, by decide, by decide⟩
    | exact ⟨'L', by decide, by decide, by decide⟩
    | exact ⟨'M', by decide, by decide, by decide⟩
    | exact ⟨'P', by decide, by decide, by decide⟩
    | exact ⟨'R', by decide, by decide, by decide⟩
    | exact ⟨'S', by decide, by decide, by decide⟩
    | exact ⟨'T', by decide, by decide, by decide⟩

theorem isUpperAZ_checkLetter (t : Nat) :
    isUpperAZ (checkLetter t) = true := by
  unfold checkLetter isUpperAZ
  have h26 : t % 26 < 26 := Nat.mod_lt _ (by decide)
  have ht : (Char.ofNat (65 + t % 26)).toNat = 65 + t % 26 :=
    toNat_ofNat_lt (by omega)
  rw [Bool.and_eq_true]
  constructor
  · rw [decide_eq_true_eq, char_le_iff_toNat, ht]
    have hA : ('A' : Char).toNat = 65 := by decide
    omega
  · rw [decide_eq_true_eq, char_le_iff_toNat, ht]
    have hZ : ('Z' : Char).toNat = 90 := by decide
    omega

theorem isAlnumAZ09_of_digit {c : Char} (h : isDigitC c = true) :
    isAlnumAZ09 c = true := by
  unfold isAlnumAZ09
  rw [h]
  simp

theorem isAlnumAZ09_of_upper {c : Char} (h : isUpperAZ c = true) :
    isAlnumAZ09 c = true := by
  unfold isAlnumAZ09
  rw [h]
  rfl

theorem decCh_digit {c : Char} (h : isDigitC c = true) : decCh c = c := by
  unfold decCh
  rw [omoToDigit_eq_none_of_digit h]
  rfl

theorem mkDate_of_valid {bd : Date} (h : bd.Valid) :
    mkDate bd.year bd.month bd.day = some bd := by
  have h2 : 1 ≤ bd.year ∧ bd.year ≤ 9999 ∧ 1 ≤ bd.month ∧ bd.month ≤ 12 ∧
      1 ≤ bd.day ∧ bd.day ≤ daysInMonth bd.year bd.month := h
  unfold mkDate
  rw [if_pos h2]

theorem century_recover {t y : Nat} (h1 : 2000 ≤ t) (h2 : t ≤ 2099)
    (h3 : t - 99 ≤ y) (h4 : y ≤ t) :
    (if y % 100 > t % 100 then 1900 + y % 100
     else t / 100 * 100 + y % 100) = y := by
  split_ifs with h <;> omega

theorem daysInMonth_le_31 (y m : Nat) : daysInMonth y m ≤ 31 := by
  unfold daysInMonth
  split_ifs <;> omega

/-! ## C1 -/

/-- C1 (amended): the generate/validate round trip holds once the record
is restricted to what the code can invert: the birthplace code (after
trim/uppercase) must be a letter followed by three digits, and the birth
year must lie in the century-resolution window of the current date
(taken in 2000–2099): `today.year - 99 ≤ year ≤ today.year`. -/
theorem claim_C1_amended_roundtrip (dir : Directory) (today : Date)
    (surname name : List Char) (bd : Date) (g : String) (bpc : List Char)
    (hvd : bd.Valid)
    (hg : g = "M" ∨ g = "F")
    (hs : pyStrip surname ≠ [])
    (hn : pyStrip name ≠ [])
    (hbl : ((pyStrip bpc).map pyUpper).length = 4)
    (hb0 : isUpperAZ (((pyStrip bpc).map pyUpper).getD 0 ' ') = true)
    (hb1 : isDigitC (((pyStrip bpc).map pyUpper).getD 1 ' ') = true)
    (hb2 : isDigitC (((pyStrip bpc).map pyUpper).getD 2 ' ') = true)
    (hb3 : isDigitC (((pyStrip bpc).map pyUpper).getD 3 ' ') = true)
    (ht1 : 2000 ≤ today.year) (ht2 : today.year ≤ 2099)
    (hy1 : today.year - 99 ≤ bd.year) (hy2 : bd.year ≤ today.year) :
    ∃ cf, (cfGenerate surname name bd g bpc).codice_fiscale = some cf ∧
      (cfValidate dir today false 18 cf).is_valid = true ∧
      (cfValidate dir today false 18 cf).birthdate = some bd ∧
      (cfValidate dir today false 18 cf).gender = some g := by
  have hm1 : 1 ≤ bd.month := hvd.2.2.1
  have hm12 : bd.month ≤ 12 := hvd.2.2.2.1
  have hd1 : 1 ≤ bd.day := hvd.2.2.2.2.1
  have hd31 : bd.day ≤ 31 :=
    le_trans hvd.2.2.2.2.2 (daysInMonth_le_31 bd.year bd.month)
  have hy1901 : 1901 ≤ bd.year := by omega
  obtain ⟨mc, hmc, hmcf, hmcU⟩ := cfMonth_roundtrip hm1 hm12
  obtain ⟨s0, s1, s2, hsshape⟩ := shape3 (encodeSurname_length surname)
  obtain ⟨n0, n1, n2, hnshape⟩ := shape3 (encodeName_length name)
  obtain ⟨b0, b1, b2, b3, hbshape⟩ := shape4 hbl
  rw [hbshape] at hb0 hb1 hb2 hb3
  have hb0u : isUpperAZ b0 = true := by simpa using hb0
  have hb1d : isDigitC b1 = true := by simpa using hb1
  have hb2d : isDigitC b2 = true := by simpa using hb2
  have hb3d : isDigitC b3 = true := by simpa using hb3
  have hs0 : isUpperAZ s0 = true :=
    encodeSurname_upper surname s0 (by rw [hsshape]; simp)
  have hs1 : isUpperAZ s1 = true :=
    encodeSurname_upper surname s1 (by rw [hsshape]; simp)
  have hs2 : isUpperAZ s2 = true :=
    encodeSurname_upper surname s2 (by rw [hsshape]; simp)
  have hn0 : isUpperAZ n0 = true :=
    encodeName_upper name n0 (by rw [hnshape]; simp)
  have hn1 : isUpperAZ n1 = true :=
    encodeName_upper name n1 (by rw [hnshape]; simp)
  have hn2 : isUpperAZ n2 = true :=
    encodeName_upper name n2 (by rw [hnshape]; simp)
  obtain ⟨y1, y2, hyshape, hyd1, hyd2, hyparse⟩ :
      ∃ y1 y2, yearCode bd.year = [y1, y2] ∧ isDigitC y1 = true ∧
        isDigitC y2 = true ∧ parse2 y1 y2 = some (bd.year % 100) := by
    refine ⟨digitCh (bd.year / 10 % 10), digitCh (bd.year % 10),
      yearCode_eq (by omega),
      isDigitC_digitCh (Nat.mod_lt _ (by decide)),
      isDigitC_digitCh (Nat.mod_lt _ (by decide)), ?_⟩
    rw [parse2_digits (Nat.mod_lt _ (by decide)) (Nat.mod_lt _ (by decide))]
    congr 1
    omega
  obtain ⟨d1, d2, draw, hdshape, hdd1, hdd2, hdparse, hdspec⟩ :
      ∃ d1 d2 draw, encodeDay bd.day g = [d1, d2] ∧ isDigitC d1 = true ∧
        isDigitC d2 = true ∧ parse2 d1 d2 = some draw ∧
        ((draw > 40 → draw - 40 = bd.day ∧ g = "F") ∧
         (¬ draw > 40 → draw = bd.day ∧ g = "M")) := by
    rcases hg with rfl | rfl
    · refine ⟨digitCh (bd.day / 10), digitCh (bd.day % 10), bd.day, ?_,
        isDigitC_digitCh (by omega),
        isDigitC_digitCh (Nat.mod_lt _ (by decide)), ?_, ?_, ?_⟩
      · unfold encodeDay
        rw [if_neg (by decide)]
        exact format02d_eq (by omega)
      · rw [parse2_digits (by omega) (Nat.mod_lt _ (by decide))]
        congr 1
        omega
      · intro hgt
        omega
      · intro _
        exact ⟨rfl, rfl⟩
    · refine ⟨digitCh ((bd.day + 40) / 10), digitCh ((bd.day + 40) % 10),
        bd.day + 40, ?_,
        isDigitC_digitCh (by omega),
        isDigitC_digitCh (Nat.mod_lt _ (by decide)), ?_, ?_, ?_⟩
      · unfold encodeDay
        rw [if_pos rfl]
        exact format02d_eq (by omega)
      · rw [parse2_digits (by omega) (Nat.mod_lt _ (by decide))]
        congr 1
        omega
      · intro _
        exact ⟨by omega, rfl⟩
      · intro hle
        omega
  obtain ⟨ck, hckdef, hckU⟩ :
      ∃ ck, calculateCheckDigit
          [s0, s1, s2, n0, n1, n2, y1, y2, mc, d1, d2, b0, b1, b2, b3]
          = ck ∧ isUpperAZ ck = true :=
    ⟨_, rfl, isUpperAZ_checkLetter _⟩
  have hgen : (cfGenerate surname name bd g bpc).codice_fiscale
      = some [s0, s1, s2, n0, n1, n2, y1, y2, mc, d1, d2, b0, b1, b2, b3,
        ck] := by
    unfold cfGenerate
    rw [if_neg (by simpa using hs), if_neg (by simpa using hn),
      if_neg (by simp only [not_not]; exact hg), if_neg (by omega), hmc]
    simp only []
    rw [hsshape, hnshape, hyshape, hdshape, hbshape]
    simp only [List.cons_append, List.nil_append]
    rw [hckdef]
  have hf' : validateFormat
      [s0, s1, s2, n0, n1, n2, y1, y2, mc, d1, d2, b0, b1, b2, b3, ck]
      = true := by
    simp [validateFormat, cfPatternMatch, hs0, hs1, hs2, hn0, hn1, hn2,
      hmcU, hb0u, hckU, isAlnumAZ09_of_digit hyd1, isAlnumAZ09_of_digit
      hyd2, isAlnumAZ09_of_digit hdd1, isAlnumAZ09_of_digit hdd2,
      isAlnumAZ09_of_digit hb1d, isAlnumAZ09_of_digit hb2d,
      isAlnumAZ09_of_digit hb3d]
  have hclean' : cfClean
      [s0, s1, s2, n0, n1, n2, y1, y2, mc, d1, d2, b0, b1, b2, b3, ck]
      = [s0, s1, s2, n0, n1, n2, y1, y2, mc, d1, d2, b0, b1, b2, b3, ck] :=
    cfClean_eq_self_of_alnum (validateFormat_all_alnum hf')
  have hdec : decodeOmocodia
      [s0, s1, s2, n0, n1, n2, y1, y2, mc, d1, d2, b0, b1, b2, b3, ck]
      = [s0, s1, s2, n0, n1, n2, y1, y2, mc, d1, d2, b0, b1, b2, b3,
        ck] := by
    apply list_eq_of_getD
    · rw [decodeOmocodia_length]
    · intro q
      rw [decodeOmocodia_getD]
      by_cases hq : q ∈ OMOCODIA_POSITIONS
      · rw [if_pos hq]
        simp only [OMOCODIA_POSITIONS, List.mem_cons, List.not_mem_nil,
          or_false] at hq
        rcases hq with rfl | rfl | rfl | rfl | rfl | rfl | rfl <;>
          first
          | exact decCh_digit hyd1
          | exact decCh_digit hyd2
          | exact decCh_digit hdd1
          | exact decCh_digit hdd2
          | exact decCh_digit hb1d
          | exact decCh_digit hb2d
          | exact decCh_digit hb3d
      · rw [if_neg hq]
  have hc' : validateCheckDigit
      [s0, s1, s2, n0, n1, n2, y1, y2, mc, d1, d2, b0, b1, b2, b3, ck]
      = true := by
    simp only [validateCheckDigit]
    rw [hdec]
    have h15 : ([s0, s1, s2, n0, n1, n2, y1, y2, mc, d1, d2, b0, b1, b2,
        b3, ck] : List Char).getD 15 ' ' = ck := rfl
    have htake : ([s0, s1, s2, n0, n1, n2, y1, y2, mc, d1, d2, b0, b1, b2,
        b3, ck] : List Char).take 15
        = [s0, s1, s2, n0, n1, n2, y1, y2, mc, d1, d2, b0, b1, b2, b3] :=
      rfl
    rw [h15, htake, ← hckdef]
    unfold calculateCheckDigit
    exact beq_self_eq_true _
  have hx' : extractBirthdateAndGender today
      [s0, s1, s2, n0, n1, n2, y1, y2, mc, d1, d2, b0, b1, b2, b3, ck]
      = some (bd, g) := by
    unfold extractBirthdateAndGender
    rw [hdec]
    have h67 : parse2 (([s0, s1, s2, n0, n1, n2, y1, y2, mc, d1, d2, b0,
        b1, b2, b3, ck] : List Char).getD 6 ' ')
        (([s0, s1, s2, n0, n1, n2, y1, y2, mc, d1, d2, b0, b1, b2, b3,
          ck] : List Char).getD 7 ' ') = some (bd.year % 100) := hyparse
    rw [h67, Option.some_bind]
    have h8 : cfMonthCode (([s0, s1, s2, n0, n1, n2, y1, y2, mc, d1, d2,
        b0, b1, b2, b3, ck] : List Char).getD 8 ' ') = some bd.month :=
      hmcf
    rw [h8, Option.some_bind]
    have h910 : parse2 (([s0, s1, s2, n0, n1, n2, y1, y2, mc, d1, d2, b0,
        b1, b2, b3, ck] : List Char).getD 9 ' ')
        (([s0, s1, s2, n0, n1, n2, y1, y2, mc, d1, d2, b0, b1, b2, b3,
          ck] : List Char).getD 10 ' ') = some draw := hdparse
    rw [h910, Option.some_bind]
    rw [century_recover ht1 ht2 (by omega) (by omega)]
    by_cases hgt : draw > 40
    · obtain ⟨hde, hgF⟩ := hdspec.1 hgt
      rw [if_pos hgt, if_pos hgt, hde]
      rw [mkDate_of_valid hvd, Option.some_bind, hgF]
    · obtain ⟨hde, hgM⟩ := hdspec.2 hgt
      rw [if_neg hgt, if_neg hgt, hde]
      rw [mkDate_of_valid hvd, Option.some_bind, hgM]
  refine ⟨[s0, s1, s2, n0, n1, n2, y1, y2, mc, d1, d2, b0, b1, b2, b3,
    ck], hgen, ?_, ?_, ?_⟩
  all_goals
    rw [cfValidate_success dir today false 18
      (by rw [hclean']; exact hf') (by rw [hclean']; exact hc')
      (by rw [hclean']; exact hx') (by simp)]

/-- Witness for the amended C1 at the README example record
(Rossi, Mario, 1985-08-01, M, H501) on 2025-10-12. -/
theorem claim_C1_amended_roundtrip_witness :
    ∃ cf, (cfGenerate ("Rossi".toList) ("Mario".toList) ⟨1985, 8, 1⟩ "M"
        ("H501".toList)).codice_fiscale = some cf ∧
      (cfValidate sampleDirectory ⟨2025, 10, 12⟩ false 18 cf).is_valid
        = true ∧
      (cfValidate sampleDirectory ⟨2025, 10, 12⟩ false 18 cf).birthdate
        = some ⟨1985, 8, 1⟩ ∧
      (cfValidate sampleDirectory ⟨2025, 10, 12⟩ false 18 cf).gender
        = some "M" :=
  claim_C1_amended_roundtrip sampleDirectory ⟨2025, 10, 12⟩
    ("Rossi".toList) ("Mario".toList) ⟨1985, 8, 1⟩ "M" ("H501".toList)
    (by decide) (Or.inl rfl) (by decide) (by decide) (by decide)
    (by decide) (by decide) (by decide) (by decide) (by decide)
    (by decide) (by decide) (by decide)

/-- C1 (counterexample): the claim as stated is false — the record
(Rossi, Mario, 1985-08-01, M, "1111") has a non-blank surname and name,
gender `M`, a valid calendar birthdate and a 4-character birthplace code,
and Generate accepts it, but validating the generated Codice Fiscale
fails (the all-digit birthplace code violates the format pattern, which
requires a letter at position 11). -/
theorem claim_C1_counterexample :
    (cfGenerate ("Rossi".toList) ("Mario".toList) ⟨1985, 8, 1⟩ "M"
        ("1111".toList)).is_valid = true ∧
    (cfValidate sampleDirectory ⟨2025, 10, 12⟩ false 18
        ((cfGenerate ("Rossi".toList) ("Mario".toList) ⟨1985, 8, 1⟩ "M"
          ("1111".toList)).codice_fiscale.getD [])).is_valid = false ∧
    (cfValidate sampleDirectory ⟨2025, 10, 12⟩ false 18
        ((cfGenerate ("Rossi".toList) ("Mario".toList) ⟨1985, 8, 1⟩ "M"
          ("1111".toList)).codice_fiscale.getD [])).error_code
      = some "tax_id_cf_invalid_format" := by
  refine ⟨by decide, by decide, by decide⟩

end ItalianTax
